import Mathlib

/-! # backup_remote_files: sweep executor, scheduler and configuration defaults

A shallow embedding of `main.go` (`backupFile`, `fileSize`, `retrieveUrls`, the
ticker logic of `main`) and of `config/config.go` (`readConfig`), followed by the
theorems that settle the specification claims.

The outside world (HTTP server, file system, clock) is explicit: an `Env` says
how every call to the outside answers, by call number, and a `World` carries the
file system and the number of calls made so far.
-/

namespace BackupRemoteFiles

/-! ## Data model (config/config.go) -/

/-- Backup is one entry of `Config.Backups`. -/
structure Backup where
  ID : String
  URL : String
  Username : String
  Password : String
  OutputFile : String
  RetrieveSuccess : Bool

/-- Config as filled by `config.New`; durations are `time.Duration` values, that
is a signed count of nanoseconds. -/
structure Config where
  Port : Int
  Backups : List Backup
  Interval : Int
  RetryInterval : Int
  MetricsPrefix : String

/-! ## Metrics (main.go, `type metrics`)

Each vector is a map from the `id` label to the stored value, `none` while the
series has never been touched. Gauges hold the integer that the code passes
through `float64(...)`. `BuildInfo` plays no part in a sweep and is left out. -/

/-- The metric vectors written by a sweep. -/
structure metrics where
  Status : String → Option Int
  Size : String → Option Int
  Time : String → Option Int
  BackupFailed : String → Option Nat
  BackupTotal : Nat

/-- Gauge update `vec.With(Labels{"id": id}).Set(v)`. -/
def gaugeSet (vec : String → Option Int) (id : String) (v : Int) : String → Option Int :=
  fun k => if k = id then some v else vec k

/-- Counter update `vec.With(Labels{"id": id}).Inc()`. -/
def counterInc (vec : String → Option Nat) (id : String) : String → Option Nat :=
  fun k => if k = id then some ((vec k).getD 0 + 1) else vec k

/-! ## The outside world -/

/-- What `http.DefaultClient.Do` gives back: an error (the request could not be
carried out), or a response. Go returns a response, not an error, for every
status code the server answers with, 401 included. -/
inductive HttpResult where
  | failed
  | response (status : Nat) (body : List Nat)

/-- The errors that `backupFile` and `fileSize` can return. -/
inductive Err where
  | newRequest
  | doRequest
  | create
  | copy
  | stat
deriving DecidableEq

/-- The answers of the outside world. The `Nat` argument is the number of calls
made to the outside so far, so that the same call may answer differently at
different moments.
* `requestOk url`: `http.NewRequestWithContext` accepts the URL;
* `doRequest n url username password`: outcome of `http.DefaultClient.Do`;
* `createOk n file`: `os.Create` succeeds;
* `copyStops n file`: `none` when `io.Copy` runs to the end, `some k` when it
  fails after `k` bytes have reached the file;
* `statOk n file`: `os.Stat` succeeds on an existing file;
* `unixNow n`: `time.Now().Unix()`;
* `asyncTimerChan`: which timer channels the Go runtime gives the program,
  `true` for the buffered channels of Go before 1.23 (still selected by
  `GODEBUG=asynctimerchan=1`), on which `Stop` and `Reset` leave a tick that is
  already in the channel, `false` for the channels of Go 1.23 and later, on
  which `Stop` and `Reset` discard it. -/
structure Env where
  requestOk : String → Bool
  doRequest : Nat → String → String → String → HttpResult
  createOk : Nat → String → Bool
  copyStops : Nat → String → Option Nat
  statOk : Nat → String → Bool
  unixNow : Nat → Int
  asyncTimerChan : Bool

/-- The mutable part of the outside world: the call counter and the files,
a file being its list of bytes. -/
structure World where
  calls : Nat
  files : String → Option (List Nat)

/-- One more call to the outside has been made. -/
def World.tick (w : World) : World :=
  { w with calls := w.calls + 1 }

/-- The file `name` now holds `content`. -/
def World.write (w : World) (name : String) (content : List Nat) : World :=
  { w with files := fun k => if k = name then some content else w.files k }

/-! ## main.go: backupFile and fileSize -/

/-- The function `backupFile` of main.go. `id` is only logged. Returns the new
world, `retrieveSuccess` and `err`. -/
def backupFile (env : Env) (w : World) (_id url username password outputFile : String) :
    World × Bool × Option Err :=
  if env.requestOk url = false then
    (w, false, some Err.newRequest)
  else
    match env.doRequest w.calls url username password with
    | HttpResult.failed => (w.tick, false, some Err.doRequest)
    | HttpResult.response _ body =>
      let w1 := w.tick
      if env.createOk w1.calls outputFile = false then
        (w1.tick, true, some Err.create)
      else
        let w2 := (w1.tick).write outputFile []
        match env.copyStops w2.calls outputFile with
        | some k => ((w2.tick).write outputFile (body.take k), true, some Err.copy)
        | none => ((w2.tick).write outputFile body, true, none)

/-- The function `fileSize` of main.go: `os.Stat` fails on a missing file, or
when the outside world says so. -/
def fileSize (env : Env) (w : World) (filename : String) : World × Int × Option Err :=
  match w.files filename with
  | none => (w.tick, 0, some Err.stat)
  | some content =>
    if env.statOk w.calls filename = false then (w.tick, 0, some Err.stat)
    else (w.tick, (content.length : Int), none)

/-! ## main.go: retrieveUrls -/

/-- The assignment `cfg.Backups[id].RetrieveSuccess = v`. -/
def setRetrieveSuccess : List Backup → Nat → Bool → List Backup
  | [], _, _ => []
  | b :: bs, 0, v => { b with RetrieveSuccess := v } :: bs
  | b :: bs, n + 1, v => b :: setRetrieveSuccess bs n v

/-- The variables of a running sweep: the backing array of `cfg.Backups`, the
metrics, the world, the local `allRetrievalsSuccess`, and (for the proofs only)
the positions for which `backupFile` has been called, in call order. -/
structure SweepState where
  Backups : List Backup
  metric : metrics
  world : World
  allRetrievalsSuccess : Bool
  fetched : List Nat

/-- One iteration of `for id, backup := range cfg.Backups` in `retrieveUrls`;
`backup` is the copy of element `id` taken when the iteration starts. -/
def loopBody (env : Env) (retrieveAll : Bool) (s : SweepState) (id : Nat) : SweepState :=
  match s.Backups[id]? with
  | none => s
  | some backup =>
    if (!retrieveAll) && backup.RetrieveSuccess then
      s
    else
      let bs1 := setRetrieveSuccess s.Backups id true
      match backupFile env s.world backup.ID backup.URL backup.Username backup.Password
          backup.OutputFile with
      | (w1, RetrieveSuccess, some _) =>
        { Backups := setRetrieveSuccess bs1 id RetrieveSuccess
          metric := { s.metric with
            Status := gaugeSet s.metric.Status backup.ID 0
            BackupFailed := counterInc s.metric.BackupFailed backup.ID }
          world := w1
          allRetrievalsSuccess := if !RetrieveSuccess then false else s.allRetrievalsSuccess
          fetched := s.fetched ++ [id] }
      | (w1, _, none) =>
        match fileSize env w1 backup.OutputFile with
        | (w2, _, some _) =>
          { Backups := bs1
            metric := { s.metric with
              Status := gaugeSet s.metric.Status backup.ID 0
              BackupFailed := counterInc s.metric.BackupFailed backup.ID }
            world := w2
            allRetrievalsSuccess := s.allRetrievalsSuccess
            fetched := s.fetched ++ [id] }
        | (w2, size, none) =>
          { Backups := bs1
            metric := { s.metric with
              Status := gaugeSet s.metric.Status backup.ID 1
              Size := gaugeSet s.metric.Size backup.ID size
              Time := gaugeSet s.metric.Time backup.ID (env.unixNow w2.calls) }
            world := w2.tick
            allRetrievalsSuccess := s.allRetrievalsSuccess
            fetched := s.fetched ++ [id] }

/-- The state in which the loop of `retrieveUrls` starts. -/
def sweepInit (cfg : Config) (metric : metrics) (w : World) : SweepState :=
  { Backups := cfg.Backups, metric := metric, world := w, allRetrievalsSuccess := true,
    fetched := [] }

/-- The state of the sweep when the loop reaches position `k`. -/
def sweepUpTo (env : Env) (cfg : Config) (metric : metrics) (w : World) (retrieveAll : Bool)
    (k : Nat) : SweepState :=
  (List.range k).foldl (loopBody env retrieveAll) (sweepInit cfg metric w)

/-- The function `retrieveUrls` of main.go. The value it returns is the field
`allRetrievalsSuccess` of the result; the other fields are its effects. -/
def retrieveUrls (env : Env) (cfg : Config) (metric : metrics) (w : World) (retrieveAll : Bool) :
    SweepState :=
  let s := sweepUpTo env cfg metric w retrieveAll cfg.Backups.length
  { s with metric := { s.metric with BackupTotal := s.metric.BackupTotal + 1 } }

/-! ## main.go: the tickers and the periodic loop of `main`

Time is a logical clock counted in nanoseconds. A `time.Ticker` is its period,
the time at which its runtime timer fires next, and its channel `C`, which
holds at most one tick. Each time the timer fires a tick is put in the channel
if the channel is empty and dropped otherwise, so a tick that fell due while
the loop was busy waits in the channel. `Stop` and `Reset` act on the timer;
whether they also empty the channel depends on the Go runtime (see
`Env.asyncTimerChan`). -/

/-- A `time.Ticker`: period `d`, the time `next` at which the timer fires next
(`none` once the ticker is stopped), and whether a tick is waiting in the
channel. -/
structure Ticker where
  d : Int
  next : Option Int
  pending : Bool

/-- The ticker once the clock shows `now`: if the timer was due, it has fired,
a tick is in the channel, and the timer is set to its first period after
`now`. -/
def Ticker.advance (t : Ticker) (now : Int) : Ticker :=
  match t.next with
  | none => t
  | some due =>
    if due ≤ now then
      { t with next := some (due + t.d * ((now - due) / t.d + 1)), pending := true }
    else t

/-- The call `time.NewTicker(d)` at time `now`; it panics (`none`) unless `d` is
positive. -/
def NewTicker (now d : Int) : Option Ticker :=
  if 0 < d then some { d := d, next := some (now + d), pending := false } else none

/-- The method `Stop` of a ticker, called at time `now`: the timer fires no
more; a tick already in the channel stays there on the buffered channels of Go
before 1.23 (`async`) and is discarded otherwise. -/
def Ticker.Stop (async : Bool) (t : Ticker) (now : Int) : Ticker :=
  { t with next := none, pending := async && (t.advance now).pending }

/-- The method `Reset(d)` of a ticker, called at time `now`: the timer fires
next one period later; a tick already in the channel stays there on the
buffered channels of Go before 1.23 (`async`) and is discarded otherwise. It
panics (`none`) unless `d` is positive. -/
def Ticker.Reset (async : Bool) (t : Ticker) (now d : Int) : Option Ticker :=
  if 0 < d then
    some { d := d, next := some (now + d), pending := async && (t.advance now).pending }
  else none

/-- A receive `<-t.C` started at time `now`. A tick waiting in the channel is
received at once; otherwise the receive lasts until the timer fires, and never
completes (`none`) when the ticker is stopped. Returns the time at which the
tick is received and the ticker afterwards. -/
def Ticker.recv (t : Ticker) (now : Int) : Option (Int × Ticker) :=
  if (t.advance now).pending then
    some (now, { t.advance now with pending := false })
  else
    match (t.advance now).next with
    | none => none
    | some due => some (due, { t.advance now with next := some (due + t.d) })

/-- Whether the timer of the ticker is running, that is, the ticker has not
been stopped. -/
def Ticker.armed (t : Ticker) : Bool :=
  t.next.isSome

/-- The variables of `main` once the tickers exist. `cfg.Backups` is the backing
array shared by every copy of `cfg`. -/
structure MainState where
  cfg : Config
  m : metrics
  world : World
  now : Int
  ticker : Ticker
  tickerRetry : Ticker

/-- The part of `main` from the creation of the tickers to the end of the first
sweep, started at time `now` with a first sweep that lasts `dur`. Returns the
state in which the goroutine starts and the value returned by the sweep;
`none` when a ticker cannot be created. -/
def mainStart (env : Env) (cfg : Config) (m : metrics) (w : World) (now : Int) (dur : Nat) :
    Option (MainState × Bool) :=
  match NewTicker now cfg.Interval, NewTicker now cfg.RetryInterval with
  | some ticker, some tickerRetry =>
    let r := retrieveUrls env cfg m w true
    some ({ cfg := { cfg with Backups := r.Backups }
            m := r.metric
            world := r.world
            now := now + dur
            ticker := ticker
            tickerRetry :=
              if r.allRetrievalsSuccess then
                tickerRetry.Stop env.asyncTimerChan (now + dur)
              else tickerRetry },
          r.allRetrievalsSuccess)
  | _, _ => none

/-- The two cases of the `select` in the goroutine of `main`, each with the
time its sweep takes. -/
inductive Tick where
  | full (dur : Nat)
  | retry (dur : Nat)

/-- The argument `retrieveAll` of the sweep run by a case of the `select`. -/
def Tick.retrieveAll : Tick → Bool
  | Tick.full _ => true
  | Tick.retry _ => false

/-- One turn of the `for { select { ... } }` loop of `main` in which the given
case is taken. Returns the new state and the value returned by the sweep;
`none` when the case cannot be taken (its ticker is stopped and its channel is
empty) or `Reset` panics. -/
def mainStep (env : Env) (s : MainState) : Tick → Option (MainState × Bool)
  | Tick.full dur =>
    match s.ticker.recv s.now with
    | none => none
    | some (t, ticker) =>
      let r := retrieveUrls env s.cfg s.m s.world true
      if r.allRetrievalsSuccess then
        some ({ cfg := { s.cfg with Backups := r.Backups }
                m := r.metric
                world := r.world
                now := t + dur
                ticker := ticker
                tickerRetry := s.tickerRetry.Stop env.asyncTimerChan (t + dur) }, true)
      else
        match s.tickerRetry.Reset env.asyncTimerChan (t + dur) s.cfg.RetryInterval with
        | none => none
        | some tickerRetry =>
          some ({ cfg := { s.cfg with Backups := r.Backups }
                  m := r.metric
                  world := r.world
                  now := t + dur
                  ticker := ticker
                  tickerRetry := tickerRetry }, false)
  | Tick.retry dur =>
    match s.tickerRetry.recv s.now with
    | none => none
    | some (t, tickerRetry) =>
      let r := retrieveUrls env s.cfg s.m s.world false
      some ({ cfg := { s.cfg with Backups := r.Backups }
              m := r.metric
              world := r.world
              now := t + dur
              ticker := s.ticker
              tickerRetry :=
                if r.allRetrievalsSuccess then
                  tickerRetry.Stop env.asyncTimerChan (t + dur)
                else tickerRetry },
            r.allRetrievalsSuccess)

/-- The loop of `main` taking the given cases one after the other. -/
def mainRun (env : Env) : MainState → List Tick → Option MainState
  | s, [] => some s
  | s, e :: es =>
    match mainStep env s e with
    | none => none
    | some (s1, _) => mainRun env s1 es

/-! ## Go standard library: time.ParseDuration

The parser of `time.ParseDuration`, on the characters of the string. The one
departure is the fractional part, which Go computes in `float64` and which is
computed exactly here. -/

/-- The three error messages of `time.ParseDuration`. -/
inductive DurationError where
  | invalid
  | missingUnit
  | unknownUnit (u : String)
deriving DecidableEq


/-- The table `unitMap` of package time, in nanoseconds. -/
def unitMap : List (String × Nat) :=
  [("ns", 1), ("us", 1000), ("µs", 1000), ("μs", 1000), ("ms", 1000000),
   ("s", 1000000000), ("m", 60000000000), ("h", 3600000000000)]

/-- Whether the character is a decimal digit. -/
def isDigit (c : Char) : Bool :=
  decide ('0'.toNat ≤ c.toNat) && decide (c.toNat ≤ '9'.toNat)

/-- The function `leadingInt` of package time, with the value read so far:
`none` on overflow, else the value and the rest of the string. -/
def leadingInt : List Char → Nat → Option (Nat × List Char)
  | [], x => some (x, [])
  | c :: cs, x =>
    if isDigit c = false then some (x, c :: cs)
    else if x > 2 ^ 63 / 10 then none
    else
      let x1 := x * 10 + (c.toNat - '0'.toNat)
      if x1 > 2 ^ 63 then none else leadingInt cs x1

/-- The function `leadingFraction` of package time, with the value, the scale
and the overflow flag so far. -/
def leadingFraction : List Char → Nat → Nat → Bool → Nat × Nat × List Char
  | [], x, scale, _ => (x, scale, [])
  | c :: cs, x, scale, overflow =>
    if isDigit c = false then (x, scale, c :: cs)
    else if overflow then leadingFraction cs x scale true
    else if x > (2 ^ 63 - 1) / 10 then leadingFraction cs x scale true
    else
      let y := x * 10 + (c.toNat - '0'.toNat)
      if y > 2 ^ 63 then leadingFraction cs x scale true
      else leadingFraction cs y (scale * 10) false

/-- The loop `for s != ""` of `time.ParseDuration`, one number and one unit per
turn, with the sum `d` so far. Every turn removes at least one character, so a
fuel equal to the length of the string plus one is never used up. -/
def parseTerms : Nat → List Char → Nat → Except DurationError Nat
  | 0, _, _ => Except.error DurationError.invalid
  | _ + 1, [], d => Except.ok d
  | fuel + 1, c :: cs, d =>
    if (c == '.' || isDigit c) = false then Except.error DurationError.invalid
    else
      match leadingInt (c :: cs) 0 with
      | none => Except.error DurationError.invalid
      | some (v, s1) =>
        let pre := decide ((c :: cs).length ≠ s1.length)
        let fr : Nat × Nat × List Char × Bool :=
          match s1 with
          | '.' :: s2 =>
            let r := leadingFraction s2 0 1 false
            (r.1, r.2.1, r.2.2, decide (s2.length ≠ r.2.2.length))
          | _ => (0, 1, s1, false)
        let f := fr.1
        let scale := fr.2.1
        let s3 := fr.2.2.1
        let post := fr.2.2.2
        if (pre || post) = false then Except.error DurationError.invalid
        else
          let u := s3.takeWhile (fun x => !(x == '.' || isDigit x))
          let s4 := s3.dropWhile (fun x => !(x == '.' || isDigit x))
          if u.length = 0 then Except.error DurationError.missingUnit
          else
            match unitMap.lookup (String.mk u) with
            | none => Except.error (DurationError.unknownUnit (String.mk u))
            | some unit =>
              if v > 2 ^ 63 / unit then Except.error DurationError.invalid
              else
                let v1 := v * unit
                let v2 := if f > 0 then v1 + f * unit / scale else v1
                if f > 0 ∧ v2 > 2 ^ 63 then Except.error DurationError.invalid
                else
                  let d1 := (d + v2) % 2 ^ 64
                  if d1 > 2 ^ 63 then Except.error DurationError.invalid
                  else parseTerms fuel s4 d1

/-- The function `time.ParseDuration`; the result is in nanoseconds. -/
def ParseDuration (str : String) : Except DurationError Int :=
  let orig := str.data
  let neg : Bool := match orig with
    | c :: _ => c == '-'
    | [] => false
  let s : List Char := match orig with
    | c :: cs => if c == '-' || c == '+' then cs else c :: cs
    | [] => []
  if s = ['0'] then Except.ok 0
  else if s = [] then Except.error DurationError.invalid
  else
    match parseTerms (s.length + 1) s 0 with
    | Except.error e => Except.error e
    | Except.ok d =>
      if neg then Except.ok (-(d : Int))
      else if d > 2 ^ 63 - 1 then Except.error DurationError.invalid
      else Except.ok (d : Int)

/-! ## config/config.go: readConfig -/

/-- A value decoded by `yaml.Unmarshal` into `any`. A float is kept as its
text. -/
inductive YamlValue where
  | null
  | bool (b : Bool)
  | int (n : Int)
  | float (text : String)
  | str (s : String)
  | seq (items : List YamlValue)
  | map (entries : List (String × YamlValue))

/-- What `os.ReadFile` followed by `yaml.Unmarshal` into a `map[string]any`
gives for the configuration file. -/
inductive ConfigFile where
  | unreadable
  | unparsable
  | parsed (data : List (String × YamlValue))

/-- The ways `readConfig` can end: it returns nil (with the configuration it
filled), it returns an error, the logger's `Fatal` ends the process, or a type
assertion panics. -/
inductive Outcome (α : Type) where
  | ok (a : α)
  | error
  | fatal
  | panic

/-- Modelled from the spec: the package `logger` is not among the sources. Its
`Fatal` is taken to log the message and end the process, as the zap logger does
and as §7 of the specification says of these failures (they "abort the
process"); the `return err` that follows it is then never reached. -/
def loggerFatal {α : Type} : Outcome α :=
  Outcome.fatal

/-- The type assertion `fb[key].(string)`. -/
def stringField (fb : List (String × YamlValue)) (key : String) : Option String :=
  match fb.lookup key with
  | some (YamlValue.str s) => some s
  | _ => none

/-- The loop of `readConfig` over `data["backups"]`; a map is walked in the
order of its entries. -/
def readBackups : List (String × YamlValue) → List Backup → Outcome (List Backup)
  | [], acc => Outcome.ok acc
  | (id, v) :: rest, acc =>
    match v with
    | YamlValue.map fb =>
      match stringField fb "url", stringField fb "username", stringField fb "password",
          stringField fb "outputFile" with
      | some url, some username, some password, some outputFile =>
        let b : Backup :=
          { ID := id
            URL := url
            Username := username
            Password := password
            OutputFile := outputFile
            RetrieveSuccess := true }
        readBackups rest (acc ++ [b])
      | _, _, _, _ => Outcome.panic
    | _ => Outcome.panic

/-- The method `readConfig` of config/config.go, from the decoded file on. -/
def readConfig (c : Config) (file : ConfigFile) : Outcome Config :=
  match file with
  | ConfigFile.unreadable => loggerFatal
  | ConfigFile.unparsable => loggerFatal
  | ConfigFile.parsed data =>
    let interval : Outcome Int :=
      match data.lookup "interval" with
      | some (YamlValue.str s) =>
        match ParseDuration s with
        | Except.ok d => Outcome.ok d
        | Except.error _ => Outcome.error
      | some _ => Outcome.panic
      | none =>
        match ParseDuration "1d" with
        | Except.ok d => Outcome.ok d
        | Except.error _ => loggerFatal
    match interval with
    | Outcome.error => Outcome.error
    | Outcome.fatal => Outcome.fatal
    | Outcome.panic => Outcome.panic
    | Outcome.ok Interval =>
      let retryInterval : Outcome Int :=
        match data.lookup "retryInterval" with
        | some (YamlValue.str s) =>
          match ParseDuration s with
          | Except.ok d => Outcome.ok d
          | Except.error _ => Outcome.error
        | some _ => Outcome.panic
        | none =>
          match ParseDuration "1d" with
          | Except.ok d => Outcome.ok d
          | Except.error _ => loggerFatal
      match retryInterval with
      | Outcome.error => Outcome.error
      | Outcome.fatal => Outcome.fatal
      | Outcome.panic => Outcome.panic
      | Outcome.ok RetryInterval =>
        let metricsPrefix : Outcome String :=
          match data.lookup "metricsPrefix" with
          | some (YamlValue.str s) => Outcome.ok s
          | some _ => Outcome.panic
          | none => Outcome.ok "backupremotefiles"
        match metricsPrefix with
        | Outcome.error => Outcome.error
        | Outcome.fatal => Outcome.fatal
        | Outcome.panic => Outcome.panic
        | Outcome.ok MetricsPrefix =>
          match data.lookup "backups" with
          | some (YamlValue.map entries) =>
            match readBackups entries [] with
            | Outcome.ok Backups =>
              Outcome.ok
                { c with
                  Interval := Interval
                  RetryInterval := RetryInterval
                  MetricsPrefix := MetricsPrefix
                  Backups := Backups }
            | Outcome.error => Outcome.error
            | Outcome.fatal => Outcome.fatal
            | Outcome.panic => Outcome.panic
          | _ => Outcome.panic

/-! ## Concrete inputs used by the examples -/

/-- An outside world in which every URL answers 200 with the body `body` and no
local operation fails. Like the other worlds below, it has the timer channels
of Go before 1.23. -/
def envServing (body : List Nat) : Env :=
  { requestOk := fun _ => true
    doRequest := fun _ _ _ _ => HttpResult.response 200 body
    createOk := fun _ _ => true
    copyStops := fun _ _ => none
    statOk := fun _ _ => true
    unixNow := fun n => 1700000000 + n
    asyncTimerChan := true }

/-- An outside world in which every request fails to connect. -/
def envDown : Env :=
  { requestOk := fun _ => true
    doRequest := fun _ _ _ _ => HttpResult.failed
    createOk := fun _ _ => true
    copyStops := fun _ _ => none
    statOk := fun _ _ => true
    unixNow := fun n => 1700000000 + n
    asyncTimerChan := true }

/-- An outside world in which the server rejects the credentials: every request
is answered 401 with the body `body`. -/
def envUnauthorized (body : List Nat) : Env :=
  { requestOk := fun _ => true
    doRequest := fun _ _ _ _ => HttpResult.response 401 body
    createOk := fun _ _ => true
    copyStops := fun _ _ => none
    statOk := fun _ _ => true
    unixNow := fun n => 1700000000 + n
    asyncTimerChan := true }

/-- An outside world in which every URL answers 200 with the body `body`, the
file is written, and `os.Stat` then fails. -/
def envStatFails (body : List Nat) : Env :=
  { requestOk := fun _ => true
    doRequest := fun _ _ _ _ => HttpResult.response 200 body
    createOk := fun _ _ => true
    copyStops := fun _ _ => none
    statOk := fun _ _ => false
    unixNow := fun n => 1700000000 + n
    asyncTimerChan := true }

/-- The bytes of the body served in the test of main_test.go, "voh0ahch3E"
followed by a newline. -/
def wantedBody : List Nat :=
  "voh0ahch3E\n".data.map Char.toNat

/-- No metric has been touched. -/
def metrics0 : metrics :=
  { Status := fun _ => none, Size := fun _ => none, Time := fun _ => none,
    BackupFailed := fun _ => none, BackupTotal := 0 }

/-- No file exists and no call has been made. -/
def world0 : World :=
  { calls := 0, files := fun _ => none }

/-- One tracked item, as `readConfig` creates it. -/
def backupA : Backup :=
  { ID := "a", URL := "http://127.0.0.1/a", Username := "", Password := "",
    OutputFile := "a.out", RetrieveSuccess := true }

/-- A second tracked item, flagged as failed. -/
def backupB : Backup :=
  { ID := "b", URL := "http://127.0.0.1/b", Username := "u", Password := "p",
    OutputFile := "b.out", RetrieveSuccess := false }

/-- A configuration with the single item `backupA`. -/
def cfgOne : Config :=
  { Port := 9289, Backups := [backupA], Interval := 60000000000,
    RetryInterval := 10000000000, MetricsPrefix := "backuprf" }

/-- A configuration with the items `backupA` (succeeded) and `backupB` (failed). -/
def cfgTwo : Config :=
  { Port := 9289, Backups := [backupA, backupB], Interval := 60000000000,
    RetryInterval := 10000000000, MetricsPrefix := "backuprf" }

/-- The state of `main` after a first sweep of `cfgOne` that started at time 0,
lasted 1 ns and found the server unreachable. -/
def downStart : MainState :=
  { cfg := { cfgOne with Backups := (retrieveUrls envDown cfgOne metrics0 world0 true).Backups }
    m := (retrieveUrls envDown cfgOne metrics0 world0 true).metric
    world := (retrieveUrls envDown cfgOne metrics0 world0 true).world
    now := 1
    ticker := { d := 60000000000, next := some 60000000000, pending := false }
    tickerRetry := { d := 10000000000, next := some 10000000000, pending := false } }

/-- A decoded configuration file with one item and neither `interval` nor
`retryInterval`. -/
def fileNoIntervals : ConfigFile :=
  ConfigFile.parsed
    [("backups", YamlValue.map
      [("a", YamlValue.map [("url", YamlValue.str "http://127.0.0.1/a"),
        ("username", YamlValue.str ""), ("password", YamlValue.str ""),
        ("outputFile", YamlValue.str "a.out")])]),
     ("metricsPrefix", YamlValue.str "backuprf")]

/-- The configuration before `readConfig`: only the port is set. -/
def cfgEmpty : Config :=
  { Port := 9289, Backups := [], Interval := 0, RetryInterval := 0, MetricsPrefix := "" }

/-! ## Notions used in the statements -/

/-- The flag an item is left with, from what `backupFile` returned. -/
def flagFrom (r : World × Bool × Option Err) : Bool :=
  match r.2.2 with
  | some _ => r.2.1
  | none => true

/-- Whether an item belongs to the working set of a sweep: the negation of the
`continue` test at the head of the loop. -/
def inWorkingSet (retrieveAll : Bool) (b : Backup) : Bool :=
  !((!retrieveAll) && b.RetrieveSuccess)

/-- The call `backupFile(backup.ID, backup.URL, backup.Username, backup.Password,
backup.OutputFile)` made by the loop for the item `b`. -/
def fetchItem (env : Env) (w : World) (b : Backup) : World × Bool × Option Err :=
  backupFile env w b.ID b.URL b.Username b.Password b.OutputFile

/-- The metrics after an iteration whose call to `backupFile` or to `fileSize`
returned an error. -/
def metricsFailed (m : metrics) (id : String) : metrics :=
  { m with Status := gaugeSet m.Status id 0, BackupFailed := counterInc m.BackupFailed id }

/-- The metrics after an iteration in which both calls succeeded. -/
def metricsSucceeded (m : metrics) (id : String) (size now : Int) : metrics :=
  { m with Status := gaugeSet m.Status id 1, Size := gaugeSet m.Size id size,
           Time := gaugeSet m.Time id now }

/-- The retry ticker is armed exactly when some tracked item has its flag false. -/
def retryInvariant (s : MainState) : Prop :=
  s.tickerRetry.armed = true ↔ ∃ b ∈ s.cfg.Backups, b.RetrieveSuccess = false

/-- On the timer channels of Go 1.23 and later a stopped retry ticker has no
tick waiting in its channel. -/
def noStaleTick (env : Env) (s : MainState) : Prop :=
  env.asyncTimerChan = false → s.tickerRetry.armed = false → s.tickerRetry.pending = false

/-! ## Lemmas on the flag assignment -/

theorem setRetrieveSuccess_length (bs : List Backup) (i : Nat) (v : Bool) :
    (setRetrieveSuccess bs i v).length = bs.length := by
  induction bs generalizing i with
  | nil => simp [setRetrieveSuccess]
  | cons b bs ih => cases i <;> simp [setRetrieveSuccess, ih]

theorem setRetrieveSuccess_getElem?_ne (bs : List Backup) (i j : Nat) (v : Bool) (h : i ≠ j) :
    (setRetrieveSuccess bs j v)[i]? = bs[i]? := by
  induction bs generalizing i j with
  | nil => simp [setRetrieveSuccess]
  | cons b bs ih =>
    cases j with
    | zero =>
      cases i with
      | zero => exact absurd rfl h
      | succ i => simp [setRetrieveSuccess]
    | succ j =>
      cases i with
      | zero => simp [setRetrieveSuccess]
      | succ i =>
        simp only [setRetrieveSuccess, List.getElem?_cons_succ]
        exact ih i j (by omega)

theorem setRetrieveSuccess_getElem?_eq (bs : List Backup) (i : Nat) (v : Bool) :
    (setRetrieveSuccess bs i v)[i]? = bs[i]?.map (fun b => { b with RetrieveSuccess := v }) := by
  induction bs generalizing i with
  | nil => simp [setRetrieveSuccess]
  | cons b bs ih =>
    cases i with
    | zero => simp [setRetrieveSuccess]
    | succ i =>
      simp only [setRetrieveSuccess, List.getElem?_cons_succ]
      exact ih i

/-! ## Lemmas on one iteration of the loop -/

theorem loopBody_skip (env : Env) (retrieveAll : Bool) (s : SweepState) (i : Nat) (b : Backup)
    (hb : s.Backups[i]? = some b) (hw : inWorkingSet retrieveAll b = false) :
    loopBody env retrieveAll s i = s := by
  unfold inWorkingSet at hw
  simp only [loopBody, hb]
  simp at hw
  simp [hw]

theorem loopBody_out_of_range (env : Env) (retrieveAll : Bool) (s : SweepState) (i : Nat)
    (hb : s.Backups[i]? = none) : loopBody env retrieveAll s i = s := by
  simp only [loopBody, hb]

theorem loopBody_work (env : Env) (retrieveAll : Bool) (s : SweepState) (i : Nat) (b : Backup)
    (hb : s.Backups[i]? = some b) (hw : inWorkingSet retrieveAll b = true) :
    (loopBody env retrieveAll s i).fetched = s.fetched ++ [i] ∧
    (loopBody env retrieveAll s i).Backups[i]? =
      some { b with RetrieveSuccess := flagFrom (fetchItem env s.world b) } ∧
    (loopBody env retrieveAll s i).allRetrievalsSuccess =
      (s.allRetrievalsSuccess && flagFrom (fetchItem env s.world b)) := by
  unfold inWorkingSet at hw
  unfold fetchItem
  have hc : ((!retrieveAll) && b.RetrieveSuccess) = false := by
    cases retrieveAll <;> cases hr : b.RetrieveSuccess <;> simp_all
  simp only [loopBody, hb, hc, Bool.false_eq_true, if_false]
  rcases hf : backupFile env s.world b.ID b.URL b.Username b.Password b.OutputFile with ⟨w1, a, e⟩
  cases e with
  | some e =>
    simp only [flagFrom]
    refine ⟨trivial, ?_, ?_⟩
    · rw [setRetrieveSuccess_getElem?_eq, setRetrieveSuccess_getElem?_eq, hb]; simp
    · cases a <;> simp
  | none =>
    simp only [flagFrom]
    rcases hs : fileSize env w1 b.OutputFile with ⟨w2, size, e2⟩
    cases e2 with
    | some e2 =>
      refine ⟨rfl, ?_, by simp⟩
      show (setRetrieveSuccess s.Backups i true)[i]? = _
      rw [setRetrieveSuccess_getElem?_eq, hb]; simp
    | none =>
      refine ⟨rfl, ?_, by simp⟩
      show (setRetrieveSuccess s.Backups i true)[i]? = _
      rw [setRetrieveSuccess_getElem?_eq, hb]; simp

theorem loopBody_length (env : Env) (retrieveAll : Bool) (s : SweepState) (i : Nat) :
    (loopBody env retrieveAll s i).Backups.length = s.Backups.length := by
  unfold loopBody
  split
  · rfl
  · split
    · rfl
    · split
      · simp [setRetrieveSuccess_length]
      · split <;> simp [setRetrieveSuccess_length]

theorem loopBody_getElem?_ne (env : Env) (retrieveAll : Bool) (s : SweepState) (i j : Nat)
    (h : i ≠ j) : (loopBody env retrieveAll s j).Backups[i]? = s.Backups[i]? := by
  unfold loopBody
  split
  · rfl
  · split
    · rfl
    · split
      · simp [setRetrieveSuccess_getElem?_ne _ _ _ _ h]
      · split <;> simp [setRetrieveSuccess_getElem?_ne _ _ _ _ h]

/-! ## Lemmas on the loop as a whole -/

theorem sweepUpTo_succ (env : Env) (cfg : Config) (m : metrics) (w : World) (ra : Bool)
    (k : Nat) :
    sweepUpTo env cfg m w ra (k + 1) = loopBody env ra (sweepUpTo env cfg m w ra k) k := by
  simp [sweepUpTo, List.range_succ, List.foldl_append]

theorem sweepUpTo_length (env : Env) (cfg : Config) (m : metrics) (w : World) (ra : Bool)
    (k : Nat) : (sweepUpTo env cfg m w ra k).Backups.length = cfg.Backups.length := by
  induction k with
  | zero => rfl
  | succ k ih => rw [sweepUpTo_succ, loopBody_length, ih]

theorem sweepUpTo_getElem?_ge (env : Env) (cfg : Config) (m : metrics) (w : World) (ra : Bool)
    (i k : Nat) (h : k ≤ i) : (sweepUpTo env cfg m w ra k).Backups[i]? = cfg.Backups[i]? := by
  induction k with
  | zero => rfl
  | succ k ih =>
    rw [sweepUpTo_succ, loopBody_getElem?_ne _ _ _ _ _ (by omega), ih (by omega)]

theorem sweepUpTo_getElem?_lt (env : Env) (cfg : Config) (m : metrics) (w : World) (ra : Bool)
    (i j k : Nat) (hij : i < j) (hjk : j ≤ k) :
    (sweepUpTo env cfg m w ra k).Backups[i]? = (sweepUpTo env cfg m w ra j).Backups[i]? := by
  induction k with
  | zero =>
    have : j = 0 := by omega
    subst this; rfl
  | succ k ih =>
    rcases Nat.eq_or_lt_of_le hjk with h | h
    · subst h; rfl
    · rw [sweepUpTo_succ, loopBody_getElem?_ne _ _ _ _ _ (by omega), ih (by omega)]

/-- An item outside the working set is left as it was. -/
theorem sweepUpTo_getElem?_skipped (env : Env) (cfg : Config) (m : metrics) (w : World)
    (ra : Bool) (i k : Nat) (b : Backup) (hb : cfg.Backups[i]? = some b)
    (hw : inWorkingSet ra b = false) :
    (sweepUpTo env cfg m w ra k).Backups[i]? = some b := by
  rcases Nat.lt_or_ge i k with h | h
  · rw [sweepUpTo_getElem?_lt env cfg m w ra i (i + 1) k (by omega) h, sweepUpTo_succ,
      loopBody_skip env ra _ i b (by rw [sweepUpTo_getElem?_ge _ _ _ _ _ _ _ (le_refl i), hb]) hw,
      sweepUpTo_getElem?_ge _ _ _ _ _ _ _ (le_refl i), hb]
  · rw [sweepUpTo_getElem?_ge _ _ _ _ _ _ _ h, hb]

/-- An item of the working set is left with the flag that follows from its own
call to `backupFile`, made in the world the loop had reached at its position. -/
theorem sweepUpTo_getElem?_worked (env : Env) (cfg : Config) (m : metrics) (w : World)
    (ra : Bool) (i k : Nat) (b : Backup) (hik : i < k) (hb : cfg.Backups[i]? = some b)
    (hw : inWorkingSet ra b = true) :
    (sweepUpTo env cfg m w ra k).Backups[i]? =
      some { b with RetrieveSuccess :=
              flagFrom (fetchItem env (sweepUpTo env cfg m w ra i).world b) } := by
  rw [sweepUpTo_getElem?_lt env cfg m w ra i (i + 1) k (by omega) hik, sweepUpTo_succ]
  exact (loopBody_work env ra _ i b
    (by rw [sweepUpTo_getElem?_ge _ _ _ _ _ _ _ (le_refl i), hb]) hw).2.1

theorem sweepUpTo_fetched (env : Env) (cfg : Config) (m : metrics) (w : World) (ra : Bool)
    (k : Nat) :
    (sweepUpTo env cfg m w ra k).fetched = (List.range k).filter (fun i =>
      match cfg.Backups[i]? with
      | some b => inWorkingSet ra b
      | none => false) := by
  induction k with
  | zero => rfl
  | succ k ih =>
    rw [sweepUpTo_succ, List.range_succ, List.filter_append]
    have hk := sweepUpTo_getElem?_ge env cfg m w ra k k (le_refl k)
    cases hb : cfg.Backups[k]? with
    | none =>
      rw [loopBody_out_of_range _ _ _ _ (by rw [hk, hb]), ih]
      simp [hb]
    | some b =>
      cases hw : inWorkingSet ra b with
      | false =>
        rw [loopBody_skip _ _ _ _ b (by rw [hk, hb]) hw, ih]
        simp [hb, hw]
      | true =>
        rw [(loopBody_work _ _ _ _ b (by rw [hk, hb]) hw).1, ih]
        simp [hb, hw]

theorem sweepUpTo_all (env : Env) (cfg : Config) (m : metrics) (w : World) (ra : Bool)
    (k : Nat) :
    (sweepUpTo env cfg m w ra k).allRetrievalsSuccess = true ↔
      ∀ i, i < k → ∀ b, cfg.Backups[i]? = some b → inWorkingSet ra b = true →
        flagFrom (fetchItem env (sweepUpTo env cfg m w ra i).world b) = true := by
  induction k with
  | zero => simp [sweepUpTo, sweepInit]
  | succ k ih =>
    rw [sweepUpTo_succ]
    have hk := sweepUpTo_getElem?_ge env cfg m w ra k k (le_refl k)
    cases hb : cfg.Backups[k]? with
    | none =>
      rw [loopBody_out_of_range _ _ _ _ (by rw [hk, hb]), ih]
      constructor
      · intro h i hi b hib
        rcases Nat.eq_or_lt_of_le (Nat.lt_succ_iff.mp hi) with e | l
        · subst e; rw [hb] at hib; cases hib
        · exact h i l b hib
      · intro h i hi b hib
        exact h i (by omega) b hib
    | some b =>
      cases hw : inWorkingSet ra b with
      | false =>
        rw [loopBody_skip _ _ _ _ b (by rw [hk, hb]) hw, ih]
        constructor
        · intro h i hi b1 hib hwb
          rcases Nat.eq_or_lt_of_le (Nat.lt_succ_iff.mp hi) with e | l
          · subst e; rw [hb] at hib; cases hib; rw [hw] at hwb; cases hwb
          · exact h i l b1 hib hwb
        · intro h i hi b1 hib
          exact h i (by omega) b1 hib
      | true =>
        rw [(loopBody_work _ _ _ _ b (by rw [hk, hb]) hw).2.2, Bool.and_eq_true, ih]
        constructor
        · rintro ⟨h, hf⟩ i hi b1 hib hwb
          rcases Nat.eq_or_lt_of_le (Nat.lt_succ_iff.mp hi) with e | l
          · subst e; rw [hb] at hib; cases hib; exact hf
          · exact h i l b1 hib hwb
        · intro h
          exact ⟨fun i hi b1 hib hwb => h i (by omega) b1 hib hwb, h k (by omega) b hb hw⟩

/-- Processing position `j` leaves the series of `id` alone, unless the item at
`j` is in the working set and carries that very `id`. -/
theorem loopBody_metric_frame (env : Env) (ra : Bool) (s : SweepState) (j : Nat) (id : String)
    (h : ∀ b, s.Backups[j]? = some b → inWorkingSet ra b = true → b.ID ≠ id) :
    (loopBody env ra s j).metric.Status id = s.metric.Status id ∧
    (loopBody env ra s j).metric.Size id = s.metric.Size id ∧
    (loopBody env ra s j).metric.Time id = s.metric.Time id ∧
    (loopBody env ra s j).metric.BackupFailed id = s.metric.BackupFailed id := by
  cases hb : s.Backups[j]? with
  | none => rw [loopBody_out_of_range _ _ _ _ hb]; exact ⟨rfl, rfl, rfl, rfl⟩
  | some b =>
    cases hw : inWorkingSet ra b with
    | false => rw [loopBody_skip _ _ _ _ b hb hw]; exact ⟨rfl, rfl, rfl, rfl⟩
    | true =>
      have hne : id ≠ b.ID := Ne.symm (h b hb hw)
      unfold loopBody
      simp only [hb]
      split
      · exact ⟨rfl, rfl, rfl, rfl⟩
      · split
        · simp [gaugeSet, counterInc, hne]
        · split <;> simp [gaugeSet, counterInc, hne]

theorem sweepUpTo_metric_frame (env : Env) (cfg : Config) (m : metrics) (w : World) (ra : Bool)
    (k : Nat) (id : String)
    (h : ∀ (j : Nat) (b : Backup), cfg.Backups[j]? = some b → inWorkingSet ra b = true → b.ID ≠ id) :
    (sweepUpTo env cfg m w ra k).metric.Status id = m.Status id ∧
    (sweepUpTo env cfg m w ra k).metric.Size id = m.Size id ∧
    (sweepUpTo env cfg m w ra k).metric.Time id = m.Time id ∧
    (sweepUpTo env cfg m w ra k).metric.BackupFailed id = m.BackupFailed id := by
  induction k with
  | zero => exact ⟨rfl, rfl, rfl, rfl⟩
  | succ k ih =>
    rw [sweepUpTo_succ]
    have hf := loopBody_metric_frame env ra (sweepUpTo env cfg m w ra k) k id
      (by
        intro b hb
        rw [sweepUpTo_getElem?_ge _ _ _ _ _ _ _ (le_refl k)] at hb
        exact h k b hb)
    rw [hf.1, hf.2.1, hf.2.2.1, hf.2.2.2]
    exact ih

/-- With pairwise distinct identifiers, two different positions carry different
identifiers. -/
theorem ID_ne_of_nodup (bs : List Backup) (h : (bs.map Backup.ID).Nodup) (i j : Nat)
    (b c : Backup) (hi : bs[i]? = some b) (hj : bs[j]? = some c) (hij : i ≠ j) :
    b.ID ≠ c.ID := by
  intro e
  have hi1 : (bs.map Backup.ID)[i]? = some b.ID := by rw [List.getElem?_map, hi]; rfl
  have hj1 : (bs.map Backup.ID)[j]? = some b.ID := by rw [List.getElem?_map, hj, e]; rfl
  have hil : i < (bs.map Backup.ID).length := (List.getElem?_eq_some.mp hi1).1
  have hjl : j < (bs.map Backup.ID).length := (List.getElem?_eq_some.mp hj1).1
  rcases Nat.lt_or_gt_of_ne hij with l | l
  · exact List.nodup_iff_getElem?_ne_getElem?.mp h i j l hjl (by rw [hi1, hj1])
  · exact List.nodup_iff_getElem?_ne_getElem?.mp h j i l hil (by rw [hi1, hj1])

theorem inWorkingSet_iff (ra : Bool) (b : Backup) :
    inWorkingSet ra b = true ↔ (ra = true ∨ b.RetrieveSuccess = false) := by
  unfold inWorkingSet
  cases ra <;> cases b.RetrieveSuccess <;> simp

theorem loopBody_metric (env : Env) (retrieveAll : Bool) (s : SweepState) (i : Nat) (b : Backup)
    (hb : s.Backups[i]? = some b) (hw : inWorkingSet retrieveAll b = true) :
    (loopBody env retrieveAll s i).metric =
      match (fetchItem env s.world b).2.2 with
      | some _ => metricsFailed s.metric b.ID
      | none =>
        match (fileSize env (fetchItem env s.world b).1 b.OutputFile).2.2 with
        | some _ => metricsFailed s.metric b.ID
        | none => metricsSucceeded s.metric b.ID
            (fileSize env (fetchItem env s.world b).1 b.OutputFile).2.1
            (env.unixNow (fileSize env (fetchItem env s.world b).1 b.OutputFile).1.calls) := by
  unfold inWorkingSet at hw
  unfold fetchItem
  have hc : ((!retrieveAll) && b.RetrieveSuccess) = false := by
    cases retrieveAll <;> cases hr : b.RetrieveSuccess <;> simp_all
  simp only [loopBody, hb, hc, Bool.false_eq_true, if_false]
  rcases hf : backupFile env s.world b.ID b.URL b.Username b.Password b.OutputFile with ⟨w1, a, e⟩
  cases e with
  | some e => rfl
  | none =>
    dsimp only
    rcases hs : fileSize env w1 b.OutputFile with ⟨w2, size, e2⟩
    cases e2 with
    | some e2 => rfl
    | none => rfl

theorem fileSize_ok (env : Env) (w : World) (filename : String)
    (h : (fileSize env w filename).2.2 = none) :
    ∃ content, w.files filename = some content ∧
      (fileSize env w filename).2.1 = (content.length : Int) := by
  unfold fileSize at h ⊢
  cases hf : w.files filename with
  | none => rw [hf] at h; cases h
  | some content =>
    rw [hf] at h
    refine ⟨content, rfl, ?_⟩
    by_cases hs : env.statOk w.calls filename = false
    · simp [hs] at h
    · simp [hs]

theorem sweepUpTo_fetched_count (env : Env) (cfg : Config) (m : metrics) (w : World) (ra : Bool)
    (j : Nat) :
    (sweepUpTo env cfg m w ra cfg.Backups.length).fetched.count j =
      match cfg.Backups[j]? with
      | some c => if inWorkingSet ra c then 1 else 0
      | none => 0 := by
  rw [sweepUpTo_fetched, List.count_eq_of_nodup ((List.nodup_range _).filter _)]
  cases hb : cfg.Backups[j]? with
  | none => simp [List.mem_filter, hb]
  | some c =>
    have hj : j < cfg.Backups.length := (List.getElem?_eq_some.mp hb).1
    cases hr : inWorkingSet ra c <;> simp [List.mem_filter, hb, hj, hr]

/-! ## The claims on `retrieveUrls` -/

theorem retrieveUrls_all_iff (env : Env) (cfg : Config) (m : metrics) (w : World)
    (retrieveAll : Bool) :
    (retrieveUrls env cfg m w retrieveAll).allRetrievalsSuccess = true ↔
      ∀ (i : Nat) (b : Backup), cfg.Backups[i]? = some b → (retrieveAll = true ∨ b.RetrieveSuccess = false) →
        ((retrieveUrls env cfg m w retrieveAll).Backups[i]?).map Backup.RetrieveSuccess =
          some true := by
  show (sweepUpTo env cfg m w retrieveAll cfg.Backups.length).allRetrievalsSuccess = true ↔
      ∀ (i : Nat) (b : Backup), cfg.Backups[i]? = some b → (retrieveAll = true ∨ b.RetrieveSuccess = false) →
        ((sweepUpTo env cfg m w retrieveAll cfg.Backups.length).Backups[i]?).map
          Backup.RetrieveSuccess = some true
  rw [sweepUpTo_all]
  constructor
  · intro h i b hb hw
    have hi : i < cfg.Backups.length := (List.getElem?_eq_some.mp hb).1
    have hw1 := (inWorkingSet_iff retrieveAll b).mpr hw
    rw [sweepUpTo_getElem?_worked env cfg m w retrieveAll i _ b hi hb hw1]
    simp [h i hi b hb hw1]
  · intro h i hi b hb hw1
    have hw := (inWorkingSet_iff retrieveAll b).mp hw1
    have := h i b hb hw
    rw [sweepUpTo_getElem?_worked env cfg m w retrieveAll i _ b hi hb hw1] at this
    simpa using this

/-- C1: `retrieveUrls` returns true if and only if every item it considered in
that call (every item when `retrieveAll` is true, the items whose flag was false
when it is false) has `RetrieveSuccess` true when the call returns; the items it
skipped play no part. -/
theorem retrieveUrls_returns_true_iff (env : Env) (cfg : Config) (m : metrics) (w : World)
    (retrieveAll : Bool) :
    (retrieveUrls env cfg m w retrieveAll).allRetrievalsSuccess = true ↔
      ∀ (i : Nat) (b : Backup), cfg.Backups[i]? = some b →
        (retrieveAll = true ∨ b.RetrieveSuccess = false) →
        ((retrieveUrls env cfg m w retrieveAll).Backups[i]?).map Backup.RetrieveSuccess =
          some true :=
  retrieveUrls_all_iff env cfg m w retrieveAll

/-- C2: a full sweep calls `backupFile` exactly once for every tracked item,
whatever its flag; a retry sweep calls it exactly once for every item whose flag
is false and never for an item whose flag is true, and it leaves such a skipped
item as it was: its flag always, and (identifiers being pairwise distinct, as
the keys of the `backups` map are) its `backup_status`, `backup_size`,
`backup_time` and `backup_failed` series. -/
theorem retrieveUrls_working_set (env : Env) (cfg : Config) (m : metrics) (w : World) :
    (∀ i : Nat, (retrieveUrls env cfg m w true).fetched.count i =
        if i < cfg.Backups.length then 1 else 0) ∧
    (∀ i : Nat, (retrieveUrls env cfg m w false).fetched.count i =
        match cfg.Backups[i]? with
        | some b => if b.RetrieveSuccess then 0 else 1
        | none => 0) ∧
    (∀ (i : Nat) (b : Backup), cfg.Backups[i]? = some b → b.RetrieveSuccess = true →
        (retrieveUrls env cfg m w false).Backups[i]? = some b) ∧
    ((cfg.Backups.map Backup.ID).Nodup →
      ∀ (i : Nat) (b : Backup), cfg.Backups[i]? = some b → b.RetrieveSuccess = true →
        (retrieveUrls env cfg m w false).metric.Status b.ID = m.Status b.ID ∧
        (retrieveUrls env cfg m w false).metric.Size b.ID = m.Size b.ID ∧
        (retrieveUrls env cfg m w false).metric.Time b.ID = m.Time b.ID ∧
        (retrieveUrls env cfg m w false).metric.BackupFailed b.ID = m.BackupFailed b.ID) := by
  have hnd : ∀ ra, ((List.range cfg.Backups.length).filter (fun i =>
      match cfg.Backups[i]? with
      | some b => inWorkingSet ra b
      | none => false)).Nodup := fun ra => (List.nodup_range _).filter _
  refine ⟨?_, ?_, ?_, ?_⟩
  · intro i
    show (sweepUpTo env cfg m w true cfg.Backups.length).fetched.count i = _
    rw [sweepUpTo_fetched, List.count_eq_of_nodup (hnd true)]
    by_cases hi : i < cfg.Backups.length
    · have hb : cfg.Backups[i]? = some cfg.Backups[i] := List.getElem?_eq_getElem hi
      simp [List.mem_filter, hi, hb, inWorkingSet]
    · simp [List.mem_filter, hi]
  · intro i
    show (sweepUpTo env cfg m w false cfg.Backups.length).fetched.count i = _
    rw [sweepUpTo_fetched, List.count_eq_of_nodup (hnd false)]
    cases hb : cfg.Backups[i]? with
    | none => simp [List.mem_filter, hb]
    | some b =>
      have hi : i < cfg.Backups.length := (List.getElem?_eq_some.mp hb).1
      cases hr : b.RetrieveSuccess <;> simp [List.mem_filter, hb, hi, inWorkingSet, hr]
  · intro i b hb hr
    exact sweepUpTo_getElem?_skipped env cfg m w false i _ b hb (by simp [inWorkingSet, hr])
  · intro hn i b hb hr
    apply sweepUpTo_metric_frame env cfg m w false cfg.Backups.length b.ID
    intro j c hc hw
    have hcr : c.RetrieveSuccess = false := by
      rcases (inWorkingSet_iff false c).mp hw with h | h
      · cases h
      · exact h
    have hij : j ≠ i := by
      intro e
      subst e
      rw [hb] at hc
      cases hc
      rw [hr] at hcr
      cases hcr
    exact ID_ne_of_nodup cfg.Backups hn j i c b hc hb hij

/-- Witness of C2: in a retry sweep over an item that succeeded and an item that
failed, whose identifiers differ, only the second is fetched, once, and the flag
and the status series of the first are untouched. -/
theorem retrieveUrls_working_set_witness :
    (cfgTwo.Backups.map Backup.ID).Nodup ∧
    (retrieveUrls envDown cfgTwo metrics0 world0 false).fetched.count 0 = 0 ∧
    (retrieveUrls envDown cfgTwo metrics0 world0 false).fetched.count 1 = 1 ∧
    (retrieveUrls envDown cfgTwo metrics0 world0 false).Backups[0]? = some backupA ∧
    (retrieveUrls envDown cfgTwo metrics0 world0 false).metric.Status backupA.ID =
      metrics0.Status backupA.ID :=
  have h := retrieveUrls_working_set envDown cfgTwo metrics0 world0
  ⟨by decide, h.2.1 0, h.2.1 1, h.2.2.1 0 backupA rfl rfl,
    (h.2.2.2 (by decide) 0 backupA rfl rfl).1⟩

/-- C4: for an item that a sweep processes, the flag it is left with depends on
the result of `backupFile` alone: on an error the flag is the returned
`retrieveSuccess`, without error it is true, also when `fileSize` then fails;
so the flag is false exactly when the fetch returned an error with
`retrieveSuccess` false. An item whose fetch succeeded and whose size query
failed gets status 0 and one more failure, and no later retry sweep fetches it. -/
theorem retrieveUrls_flag_from_fetch (env : Env) (cfg : Config) (m : metrics) (w : World)
    (retrieveAll : Bool) (i : Nat) (b : Backup) (hb : cfg.Backups[i]? = some b)
    (hw : retrieveAll = true ∨ b.RetrieveSuccess = false) :
    let before := sweepUpTo env cfg m w retrieveAll i
    let fr := fetchItem env before.world b
    let done := loopBody env retrieveAll before i
    let after := retrieveUrls env cfg m w retrieveAll
    (fr.2.2 ≠ none → (after.Backups[i]?).map Backup.RetrieveSuccess = some fr.2.1) ∧
    (fr.2.2 = none → (after.Backups[i]?).map Backup.RetrieveSuccess = some true) ∧
    ((after.Backups[i]?).map Backup.RetrieveSuccess = some false ↔
      (fr.2.2 ≠ none ∧ fr.2.1 = false)) ∧
    (fr.2.2 = none → (fileSize env fr.1 b.OutputFile).2.2 ≠ none →
      done.metric.Status b.ID = some 0 ∧
      done.metric.BackupFailed b.ID = some ((before.metric.BackupFailed b.ID).getD 0 + 1) ∧
      ∀ (env1 : Env) (m1 : metrics) (w1 : World),
        (retrieveUrls env1 { cfg with Backups := after.Backups } m1 w1 false).fetched.count i
          = 0) := by
  intro before fr done after
  have hi : i < cfg.Backups.length := (List.getElem?_eq_some.mp hb).1
  have hw1 := (inWorkingSet_iff retrieveAll b).mpr hw
  have hflag : (after.Backups[i]?).map Backup.RetrieveSuccess = some (flagFrom fr) := by
    show ((sweepUpTo env cfg m w retrieveAll cfg.Backups.length).Backups[i]?).map
      Backup.RetrieveSuccess = _
    rw [sweepUpTo_getElem?_worked env cfg m w retrieveAll i _ b hi hb hw1]
    rfl
  have hbefore : before.Backups[i]? = some b := by
    show (sweepUpTo env cfg m w retrieveAll i).Backups[i]? = some b
    rw [sweepUpTo_getElem?_ge _ _ _ _ _ _ _ (le_refl i), hb]
  rw [hflag]
  unfold flagFrom
  refine ⟨?_, ?_, ?_, ?_⟩
  · intro h
    cases he : fr.2.2 with
    | none => exact absurd he h
    | some e => rfl
  · intro h
    rw [h]
  · cases he : fr.2.2 with
    | none => simp
    | some e => simp
  · intro h hs
    have hm := loopBody_metric env retrieveAll before i b hbefore hw1
    have hm1 : done.metric = metricsFailed before.metric b.ID := by
      rw [hm]
      show (match fr.2.2 with
        | some _ => metricsFailed before.metric b.ID
        | none =>
          match (fileSize env fr.1 b.OutputFile).2.2 with
          | some _ => metricsFailed before.metric b.ID
          | none => _) = _
      rw [h]
      cases he : (fileSize env fr.1 b.OutputFile).2.2 with
      | none => exact absurd he hs
      | some e => rfl
    refine ⟨?_, ?_, ?_⟩
    · rw [hm1]; simp [metricsFailed, gaugeSet]
    · rw [hm1]; simp [metricsFailed, counterInc]
    · intro env1 m1 w1
      have hc := sweepUpTo_fetched_count env1 { cfg with Backups := after.Backups } m1 w1 false i
      have hai : after.Backups[i]? = some { b with RetrieveSuccess := true } := by
        show (sweepUpTo env cfg m w retrieveAll cfg.Backups.length).Backups[i]? = _
        rw [sweepUpTo_getElem?_worked env cfg m w retrieveAll i _ b hi hb hw1]
        show some { b with RetrieveSuccess := flagFrom fr } = _
        unfold flagFrom
        rw [h]
      show (sweepUpTo env1 { cfg with Backups := after.Backups } m1 w1 false
        after.Backups.length).fetched.count i = 0
      rw [hc]
      show (match after.Backups[i]? with
        | some c => if inWorkingSet false c then 1 else 0
        | none => 0) = 0
      rw [hai]
      simp [inWorkingSet]

/-- Witness of C4: the single item is fetched and written, `os.Stat` then fails;
the item keeps the flag true, has status 0, and a retry sweep does not fetch it. -/
theorem retrieveUrls_flag_from_fetch_witness :
    cfgOne.Backups[0]? = some backupA ∧
    ((retrieveUrls (envStatFails wantedBody) cfgOne metrics0 world0 true).Backups[0]?).map
      Backup.RetrieveSuccess = some true ∧
    (loopBody (envStatFails wantedBody) true
      (sweepUpTo (envStatFails wantedBody) cfgOne metrics0 world0 true 0) 0).metric.Status
        backupA.ID = some 0 ∧
    (retrieveUrls (envStatFails wantedBody)
      { cfgOne with Backups :=
          (retrieveUrls (envStatFails wantedBody) cfgOne metrics0 world0 true).Backups }
      metrics0 world0 false).fetched.count 0 = 0 :=
  have h := retrieveUrls_flag_from_fetch (envStatFails wantedBody) cfgOne metrics0 world0 true 0
    backupA rfl (Or.inl rfl)
  ⟨rfl, h.2.1 rfl, (h.2.2.2 rfl (by decide)).1,
    (h.2.2.2 rfl (by decide)).2.2 (envStatFails wantedBody) metrics0 world0⟩

/-- C5: per-item errors are turned into metrics and never stop the sweep. For an
item that a sweep processes: when `backupFile` and `fileSize` both succeed,
`backup_status` becomes 1, `backup_size` the size of the file, `backup_time` the
current unix time, and `backup_failed` is not incremented; when one of them
fails, `backup_status` becomes 0, `backup_failed` grows by exactly one, and
`backup_size` and `backup_time` are left as they were. Whatever the outcomes,
every item of the working set is fetched exactly once. -/
theorem retrieveUrls_item_metrics (env : Env) (cfg : Config) (m : metrics) (w : World)
    (retrieveAll : Bool) (i : Nat) (b : Backup) (hb : cfg.Backups[i]? = some b)
    (hw : retrieveAll = true ∨ b.RetrieveSuccess = false) :
    let before := sweepUpTo env cfg m w retrieveAll i
    let fr := fetchItem env before.world b
    let sz := fileSize env fr.1 b.OutputFile
    let done := sweepUpTo env cfg m w retrieveAll (i + 1)
    (fr.2.2 = none → sz.2.2 = none →
      done.metric.Status b.ID = some 1 ∧
      (∃ content, fr.1.files b.OutputFile = some content ∧
        done.metric.Size b.ID = some (content.length : Int)) ∧
      done.metric.Time b.ID = some (env.unixNow sz.1.calls) ∧
      done.metric.BackupFailed b.ID = before.metric.BackupFailed b.ID) ∧
    ((fr.2.2 ≠ none ∨ (fr.2.2 = none ∧ sz.2.2 ≠ none)) →
      done.metric.Status b.ID = some 0 ∧
      done.metric.BackupFailed b.ID = some ((before.metric.BackupFailed b.ID).getD 0 + 1) ∧
      done.metric.Size b.ID = before.metric.Size b.ID ∧
      done.metric.Time b.ID = before.metric.Time b.ID) ∧
    (∀ j : Nat, (retrieveUrls env cfg m w retrieveAll).fetched.count j =
      match cfg.Backups[j]? with
      | some c => if retrieveAll = true ∨ c.RetrieveSuccess = false then 1 else 0
      | none => 0) := by
  intro before fr sz done
  have hw1 := (inWorkingSet_iff retrieveAll b).mpr hw
  have hbefore : before.Backups[i]? = some b := by
    show (sweepUpTo env cfg m w retrieveAll i).Backups[i]? = some b
    rw [sweepUpTo_getElem?_ge _ _ _ _ _ _ _ (le_refl i), hb]
  have hm : done.metric =
      match fr.2.2 with
      | some _ => metricsFailed before.metric b.ID
      | none =>
        match sz.2.2 with
        | some _ => metricsFailed before.metric b.ID
        | none => metricsSucceeded before.metric b.ID sz.2.1 (env.unixNow sz.1.calls) := by
    show (sweepUpTo env cfg m w retrieveAll (i + 1)).metric = _
    rw [sweepUpTo_succ]
    exact loopBody_metric env retrieveAll before i b hbefore hw1
  refine ⟨?_, ?_, ?_⟩
  · intro h1 h2
    rw [hm, h1, h2]
    obtain ⟨content, hc, hl⟩ := fileSize_ok env fr.1 b.OutputFile h2
    refine ⟨by simp [metricsSucceeded, gaugeSet], ⟨content, hc, ?_⟩,
      by simp [metricsSucceeded, gaugeSet], rfl⟩
    show (metricsSucceeded before.metric b.ID sz.2.1 (env.unixNow sz.1.calls)).Size b.ID = _
    rw [show sz.2.1 = (content.length : Int) from hl]
    simp [metricsSucceeded, gaugeSet]
  · intro h
    have hf : done.metric = metricsFailed before.metric b.ID := by
      rw [hm]
      rcases h with h | ⟨h1, h2⟩
      · cases he : fr.2.2 with
        | none => exact absurd he h
        | some e => rfl
      · rw [h1]
        cases he : sz.2.2 with
        | none => exact absurd he h2
        | some e => rfl
    rw [hf]
    exact ⟨by simp [metricsFailed, gaugeSet], by simp [metricsFailed, counterInc], rfl, rfl⟩
  · intro j
    show (sweepUpTo env cfg m w retrieveAll cfg.Backups.length).fetched.count j = _
    rw [sweepUpTo_fetched_count]
    cases hj : cfg.Backups[j]? with
    | none => rfl
    | some c =>
      by_cases hc : retrieveAll = true ∨ c.RetrieveSuccess = false
      · simp [(inWorkingSet_iff retrieveAll c).mpr hc, hc]
      · have : inWorkingSet retrieveAll c = false := by
          cases hx : inWorkingSet retrieveAll c with
          | false => rfl
          | true => exact absurd ((inWorkingSet_iff retrieveAll c).mp hx) hc
        simp [this, hc]

/-- Witness of C5: with two items and a server that cannot be reached, the first
item gets status 0 and one failure, and both items are fetched once. -/
theorem retrieveUrls_item_metrics_witness :
    cfgTwo.Backups[0]? = some backupA ∧
    (sweepUpTo envDown cfgTwo metrics0 world0 true 1).metric.Status backupA.ID = some 0 ∧
    (sweepUpTo envDown cfgTwo metrics0 world0 true 1).metric.BackupFailed backupA.ID =
      some ((metrics0.BackupFailed backupA.ID).getD 0 + 1) ∧
    (retrieveUrls envDown cfgTwo metrics0 world0 true).fetched.count 1 = 1 :=
  have h := retrieveUrls_item_metrics envDown cfgTwo metrics0 world0 true 0 backupA rfl
    (Or.inl rfl)
  ⟨rfl, (h.2.1 (Or.inl (by decide))).1, (h.2.1 (Or.inl (by decide))).2.1, h.2.2 1⟩

/-! ## The claims on `backupFile` -/

/-- C8 as stated fails: when the server rejects the credentials with a 401
response, `backupFile` returns `retrieveSuccess` true and no error, and the body
of the 401 response is what the destination file holds. -/
theorem backupFile_unauthorized_counterexample :
    (envUnauthorized wantedBody).doRequest world0.calls backupB.URL backupB.Username
      backupB.Password = HttpResult.response 401 wantedBody ∧
    (backupFile (envUnauthorized wantedBody) world0 backupB.ID backupB.URL backupB.Username
      backupB.Password backupB.OutputFile).2 = (true, none) ∧
    (backupFile (envUnauthorized wantedBody) world0 backupB.ID backupB.URL backupB.Username
      backupB.Password backupB.OutputFile).1.files backupB.OutputFile = some wantedBody := by
  refine ⟨rfl, rfl, ?_⟩
  simp [backupFile, envUnauthorized, World.write, World.tick]

/-- C8, amended: `backupFile` returns `retrieveSuccess` false with an error
exactly when the request cannot be created or `http.DefaultClient.Do` returns an
error. Once a response has arrived, with any status code, `retrieveSuccess` is
true: with an error when the creation of the file or the copy fails, without
error when both succeed, and the file then holds the body of the response. -/
theorem backupFile_retrieveSuccess (env : Env) (w : World)
    (id url username password outputFile : String) :
    (env.requestOk url = false →
      (backupFile env w id url username password outputFile).2 =
        (false, some Err.newRequest)) ∧
    (env.requestOk url = true →
      env.doRequest w.calls url username password = HttpResult.failed →
      (backupFile env w id url username password outputFile).2 =
        (false, some Err.doRequest)) ∧
    (∀ (status : Nat) (body : List Nat), env.requestOk url = true →
      env.doRequest w.calls url username password = HttpResult.response status body →
      (backupFile env w id url username password outputFile).2.1 = true ∧
      (env.createOk (w.calls + 1) outputFile = false →
        (backupFile env w id url username password outputFile).2.2 = some Err.create) ∧
      (env.createOk (w.calls + 1) outputFile = true →
        env.copyStops (w.calls + 2) outputFile ≠ none →
        (backupFile env w id url username password outputFile).2.2 = some Err.copy) ∧
      (env.createOk (w.calls + 1) outputFile = true →
        env.copyStops (w.calls + 2) outputFile = none →
        (backupFile env w id url username password outputFile).2.2 = none ∧
        (backupFile env w id url username password outputFile).1.files outputFile =
          some body)) := by
  refine ⟨?_, ?_, ?_⟩
  · intro h
    simp [backupFile, h]
  · intro h hd
    simp [backupFile, h, hd]
  · intro status body h hd
    refine ⟨?_, ?_, ?_, ?_⟩
    · simp only [backupFile, h, hd, World.tick, World.write]
      cases env.createOk (w.calls + 1) outputFile
      · simp
      · cases env.copyStops (w.calls + 1 + 1) outputFile <;> simp
    · intro hc
      simp [backupFile, h, hd, World.tick, hc]
    · intro hc hk
      cases hk1 : env.copyStops (w.calls + 2) outputFile with
      | none => exact absurd hk1 hk
      | some k => simp [backupFile, h, hd, World.tick, World.write, hc, hk1]
    · intro hc hk
      simp [backupFile, h, hd, World.tick, World.write, hc, hk]

/-! ## A sweep in which nothing fails -/

theorem fileSize_files (env : Env) (w : World) (filename : String) :
    (fileSize env w filename).1.files = w.files := by
  unfold fileSize
  cases w.files filename with
  | none => rfl
  | some content =>
    by_cases hs : env.statOk w.calls filename = false
    · simp [hs, World.tick]
    · simp [hs, World.tick]

theorem fileSize_of_file (env : Env) (w : World) (filename : String) (content : List Nat)
    (hf : w.files filename = some content) (hs : env.statOk w.calls filename = true) :
    (fileSize env w filename).2 = ((content.length : Int), none) := by
  simp [fileSize, hf, hs]

theorem loopBody_world (env : Env) (retrieveAll : Bool) (s : SweepState) (i : Nat) (b : Backup)
    (hb : s.Backups[i]? = some b) (hw : inWorkingSet retrieveAll b = true) :
    (loopBody env retrieveAll s i).world =
      match (fetchItem env s.world b).2.2 with
      | some _ => (fetchItem env s.world b).1
      | none =>
        match (fileSize env (fetchItem env s.world b).1 b.OutputFile).2.2 with
        | some _ => (fileSize env (fetchItem env s.world b).1 b.OutputFile).1
        | none => (fileSize env (fetchItem env s.world b).1 b.OutputFile).1.tick := by
  unfold inWorkingSet at hw
  unfold fetchItem
  have hc : ((!retrieveAll) && b.RetrieveSuccess) = false := by
    cases retrieveAll <;> cases hr : b.RetrieveSuccess <;> simp_all
  simp only [loopBody, hb, hc, Bool.false_eq_true, if_false]
  rcases hf : backupFile env s.world b.ID b.URL b.Username b.Password b.OutputFile with ⟨w1, a, e⟩
  cases e with
  | some e => rfl
  | none =>
    dsimp only
    rcases hs : fileSize env w1 b.OutputFile with ⟨w2, size, e2⟩
    cases e2 with
    | some e2 => rfl
    | none => rfl

/-- The call to `backupFile` for an item whose server answers with `body` and
whose file can be created and written: no error, and the file holds `body`. -/
theorem fetchItem_served (env : Env) (w : World) (b : Backup) (body : List Nat)
    (hreq : env.requestOk b.URL = true)
    (hdo : ∀ n, ∃ status, env.doRequest n b.URL b.Username b.Password =
      HttpResult.response status body)
    (hcreate : ∀ n, env.createOk n b.OutputFile = true)
    (hcopy : ∀ n, env.copyStops n b.OutputFile = none) :
    (fetchItem env w b).2 = (true, none) ∧
    ∀ name, (fetchItem env w b).1.files name =
      if name = b.OutputFile then some body else w.files name := by
  obtain ⟨status, hd⟩ := hdo w.calls
  unfold fetchItem
  constructor
  · simp [backupFile, hreq, hd, hcreate, hcopy]
  · intro name
    simp only [backupFile, hreq, hd, hcreate, hcopy, World.write, World.tick]
    by_cases hn : name = b.OutputFile <;> simp [hn]

/-- One iteration on an item whose server answers with `body` and whose file
can be created and written: the sweep's result is not lowered and the file holds
`body`. -/
theorem loopBody_served (env : Env) (s : SweepState) (i : Nat) (b : Backup) (body : List Nat)
    (hb : s.Backups[i]? = some b)
    (hreq : env.requestOk b.URL = true)
    (hdo : ∀ n, ∃ status, env.doRequest n b.URL b.Username b.Password =
      HttpResult.response status body)
    (hcreate : ∀ n, env.createOk n b.OutputFile = true)
    (hcopy : ∀ n, env.copyStops n b.OutputFile = none) :
    (loopBody env true s i).allRetrievalsSuccess = s.allRetrievalsSuccess ∧
    (∀ name, (loopBody env true s i).world.files name =
      if name = b.OutputFile then some body else s.world.files name) := by
  have hw : inWorkingSet true b = true := by simp [inWorkingSet]
  obtain ⟨hf2, hff⟩ := fetchItem_served env s.world b body hreq hdo hcreate hcopy
  have he : (fetchItem env s.world b).2.2 = none := by rw [hf2]
  refine ⟨?_, ?_⟩
  · rw [(loopBody_work env true s i b hb hw).2.2]
    simp [flagFrom, he]
  · intro name
    rw [loopBody_world env true s i b hb hw, he]
    cases (fileSize env (fetchItem env s.world b).1 b.OutputFile).2.2 with
    | some e =>
      show (fileSize env (fetchItem env s.world b).1 b.OutputFile).1.files name = _
      rw [fileSize_files, hff]
    | none =>
      show (fileSize env (fetchItem env s.world b).1 b.OutputFile).1.files name = _
      rw [fileSize_files, hff]

/-- One iteration on an item for which nothing fails, the size query included:
`backup_size` is the length of the body and `backup_status` is 1. -/
theorem loopBody_served_size (env : Env) (s : SweepState) (i : Nat) (b : Backup)
    (body : List Nat) (hb : s.Backups[i]? = some b)
    (hreq : env.requestOk b.URL = true)
    (hdo : ∀ n, ∃ status, env.doRequest n b.URL b.Username b.Password =
      HttpResult.response status body)
    (hcreate : ∀ n, env.createOk n b.OutputFile = true)
    (hcopy : ∀ n, env.copyStops n b.OutputFile = none)
    (hstat : ∀ n, env.statOk n b.OutputFile = true) :
    (∀ id, (loopBody env true s i).metric.Size id =
      if id = b.ID then some (body.length : Int) else s.metric.Size id) ∧
    (∀ id, (loopBody env true s i).metric.Status id =
      if id = b.ID then some 1 else s.metric.Status id) := by
  have hw : inWorkingSet true b = true := by simp [inWorkingSet]
  obtain ⟨hf2, hff⟩ := fetchItem_served env s.world b body hreq hdo hcreate hcopy
  have he : (fetchItem env s.world b).2.2 = none := by rw [hf2]
  have hsz := fileSize_of_file env (fetchItem env s.world b).1 b.OutputFile body
    (by rw [hff]; simp) (hstat _)
  have hse : (fileSize env (fetchItem env s.world b).1 b.OutputFile).2.2 = none := by rw [hsz]
  have hsv : (fileSize env (fetchItem env s.world b).1 b.OutputFile).2.1 = (body.length : Int) := by
    rw [hsz]
  refine ⟨?_, ?_⟩
  · intro id
    rw [loopBody_metric env true s i b hb hw, he, hse, hsv]
    simp [metricsSucceeded, gaugeSet]
  · intro id
    rw [loopBody_metric env true s i b hb hw, he, hse]
    simp [metricsSucceeded, gaugeSet]

/-- C6 as stated fails: the server answers with the eleven bytes of the test,
the file is created and written, and `os.Stat` then fails. The full sweep
returns true and the file holds the body, but `backup_size` is not set: the
branch of `retrieveUrls` for a failed `fileSize` sets the status to 0 and goes
on to the next item. -/
theorem retrieveUrls_size_unset_counterexample :
    (∀ b ∈ cfgOne.Backups, (envStatFails wantedBody).requestOk b.URL = true) ∧
    (∀ b ∈ cfgOne.Backups, ∀ n, (envStatFails wantedBody).doRequest n b.URL b.Username
      b.Password = HttpResult.response 200 wantedBody) ∧
    (∀ b ∈ cfgOne.Backups, ∀ n, (envStatFails wantedBody).createOk n b.OutputFile = true) ∧
    (∀ b ∈ cfgOne.Backups, ∀ n, (envStatFails wantedBody).copyStops n b.OutputFile = none) ∧
    (retrieveUrls (envStatFails wantedBody) cfgOne metrics0 world0 true).allRetrievalsSuccess
      = true ∧
    (retrieveUrls (envStatFails wantedBody) cfgOne metrics0 world0 true).world.files "a.out"
      = some wantedBody ∧
    (retrieveUrls (envStatFails wantedBody) cfgOne metrics0 world0 true).metric.Size "a"
      = none ∧
    (retrieveUrls (envStatFails wantedBody) cfgOne metrics0 world0 true).metric.Size "a"
      ≠ some (wantedBody.length : Int) := by
  refine ⟨fun _ _ => rfl, fun _ _ _ => rfl, fun _ _ _ => rfl, fun _ _ _ => rfl, rfl, ?_, rfl,
    ?_⟩
  · decide
  · decide

/-- C6, amended: when every item's server answers with the body `B` and the
destination files can be created and written, a full sweep returns true, and
afterwards the destination file of every item holds exactly the bytes of `B`,
whatever the files held before; when the size query on the destination files
succeeds as well, `backup_size` is the length of `B` (and `backup_status` is
1). -/
theorem retrieveUrls_full_sweep_writes_body (env : Env) (cfg : Config) (m : metrics)
    (w : World) (B : List Nat)
    (hreq : ∀ b ∈ cfg.Backups, env.requestOk b.URL = true)
    (hdo : ∀ b ∈ cfg.Backups, ∀ n, ∃ status,
      env.doRequest n b.URL b.Username b.Password = HttpResult.response status B)
    (hcreate : ∀ b ∈ cfg.Backups, ∀ n, env.createOk n b.OutputFile = true)
    (hcopy : ∀ b ∈ cfg.Backups, ∀ n, env.copyStops n b.OutputFile = none) :
    (retrieveUrls env cfg m w true).allRetrievalsSuccess = true ∧
    (∀ b ∈ cfg.Backups,
      (retrieveUrls env cfg m w true).world.files b.OutputFile = some B) ∧
    ((∀ b ∈ cfg.Backups, ∀ n, env.statOk n b.OutputFile = true) →
      ∀ b ∈ cfg.Backups,
        (retrieveUrls env cfg m w true).metric.Size b.ID = some (B.length : Int) ∧
        (retrieveUrls env cfg m w true).metric.Status b.ID = some 1) := by
  have inv : ∀ k, (sweepUpTo env cfg m w true k).allRetrievalsSuccess = true ∧
      ∀ (i : Nat) (b : Backup), i < k → cfg.Backups[i]? = some b →
        (sweepUpTo env cfg m w true k).world.files b.OutputFile = some B := by
    intro k
    induction k with
    | zero => exact ⟨rfl, fun i b hi => absurd hi (Nat.not_lt_zero i)⟩
    | succ k ih =>
      rw [sweepUpTo_succ]
      have hk := sweepUpTo_getElem?_ge env cfg m w true k k (le_refl k)
      cases hb : cfg.Backups[k]? with
      | none =>
        rw [loopBody_out_of_range _ _ _ _ (by rw [hk, hb])]
        refine ⟨ih.1, fun i b hi hib => ?_⟩
        rcases Nat.eq_or_lt_of_le (Nat.lt_succ_iff.mp hi) with e | l
        · subst e; rw [hb] at hib; cases hib
        · exact ih.2 i b l hib
      | some c =>
        have hc : c ∈ cfg.Backups := List.mem_iff_getElem?.mpr ⟨k, hb⟩
        obtain ⟨h1, h2⟩ := loopBody_served env (sweepUpTo env cfg m w true k) k c B
          (by rw [hk, hb]) (hreq c hc) (hdo c hc) (hcreate c hc) (hcopy c hc)
        refine ⟨by rw [h1]; exact ih.1, fun i b hi hib => ?_⟩
        rw [h2]
        rcases Nat.eq_or_lt_of_le (Nat.lt_succ_iff.mp hi) with e | l
        · subst e
          rw [hb] at hib
          cases hib
          simp
        · by_cases hn : b.OutputFile = c.OutputFile
          · simp [hn]
          · simp [hn, ih.2 i b l hib]
  have inv2 : (∀ b ∈ cfg.Backups, ∀ n, env.statOk n b.OutputFile = true) →
      ∀ k (i : Nat) (b : Backup), i < k → cfg.Backups[i]? = some b →
        (sweepUpTo env cfg m w true k).metric.Size b.ID = some (B.length : Int) ∧
        (sweepUpTo env cfg m w true k).metric.Status b.ID = some 1 := by
    intro hstat k
    induction k with
    | zero => exact fun i b hi => absurd hi (Nat.not_lt_zero i)
    | succ k ih =>
      rw [sweepUpTo_succ]
      have hk := sweepUpTo_getElem?_ge env cfg m w true k k (le_refl k)
      cases hb : cfg.Backups[k]? with
      | none =>
        rw [loopBody_out_of_range _ _ _ _ (by rw [hk, hb])]
        intro i b hi hib
        rcases Nat.eq_or_lt_of_le (Nat.lt_succ_iff.mp hi) with e | l
        · subst e; rw [hb] at hib; cases hib
        · exact ih i b l hib
      | some c =>
        have hc : c ∈ cfg.Backups := List.mem_iff_getElem?.mpr ⟨k, hb⟩
        obtain ⟨h3, h4⟩ := loopBody_served_size env (sweepUpTo env cfg m w true k) k c B
          (by rw [hk, hb]) (hreq c hc) (hdo c hc) (hcreate c hc) (hcopy c hc) (hstat c hc)
        intro i b hi hib
        rw [h3, h4]
        rcases Nat.eq_or_lt_of_le (Nat.lt_succ_iff.mp hi) with e | l
        · subst e
          rw [hb] at hib
          cases hib
          simp
        · obtain ⟨g2, g3⟩ := ih i b l hib
          by_cases hn : b.ID = c.ID
          · simp [hn]
          · simp [hn, g2, g3]
  refine ⟨(inv cfg.Backups.length).1, fun b hb => ?_, fun hstat b hb => ?_⟩
  · obtain ⟨i, hi⟩ := List.mem_iff_getElem?.mp hb
    exact (inv cfg.Backups.length).2 i b (List.getElem?_eq_some.mp hi).1 hi
  · obtain ⟨i, hi⟩ := List.mem_iff_getElem?.mp hb
    exact inv2 hstat cfg.Backups.length i b (List.getElem?_eq_some.mp hi).1 hi

/-- Witness of C6, amended, the test of main_test.go: one item, the server answers with
the eleven bytes of "voh0ahch3E" and a newline; the full sweep returns true, the
file holds these bytes and `backup_size` is 11. -/
theorem retrieveUrls_full_sweep_writes_body_witness :
    (retrieveUrls (envServing wantedBody) cfgOne metrics0 world0 true).allRetrievalsSuccess
      = true ∧
    (retrieveUrls (envServing wantedBody) cfgOne metrics0 world0 true).world.files "a.out"
      = some [118, 111, 104, 48, 97, 104, 99, 104, 51, 69, 10] ∧
    (retrieveUrls (envServing wantedBody) cfgOne metrics0 world0 true).metric.Size "a"
      = some 11 :=
  have h := retrieveUrls_full_sweep_writes_body (envServing wantedBody) cfgOne metrics0 world0
    wantedBody (fun _ _ => rfl) (fun _ _ _ => ⟨200, rfl⟩) (fun _ _ _ => rfl) (fun _ _ _ => rfl)
  ⟨h.1, h.2.1 backupA (List.mem_singleton.mpr rfl),
    (h.2.2 (fun _ _ _ => rfl) backupA (List.mem_singleton.mpr rfl)).1⟩

/-! ## The scheduler of `main` -/

/-- A sweep, full or retry, returns true exactly when every tracked item has its
flag true afterwards. -/
theorem retrieveUrls_all_iff_flags (env : Env) (cfg : Config) (m : metrics) (w : World)
    (ra : Bool) :
    (retrieveUrls env cfg m w ra).allRetrievalsSuccess = true ↔
      ∀ b ∈ (retrieveUrls env cfg m w ra).Backups, b.RetrieveSuccess = true := by
  have hlen : (retrieveUrls env cfg m w ra).Backups.length = cfg.Backups.length :=
    sweepUpTo_length env cfg m w ra cfg.Backups.length
  rw [retrieveUrls_all_iff]
  constructor
  · intro h b hb
    obtain ⟨i, hi⟩ := List.mem_iff_getElem?.mp hb
    have hil : i < cfg.Backups.length := by
      rw [← hlen]; exact (List.getElem?_eq_some.mp hi).1
    have hc : cfg.Backups[i]? = some cfg.Backups[i] := List.getElem?_eq_getElem hil
    cases hw : inWorkingSet ra cfg.Backups[i] with
    | true =>
      have := h i _ hc ((inWorkingSet_iff ra _).mp hw)
      rw [hi] at this
      simpa using this
    | false =>
      have hs : (retrieveUrls env cfg m w ra).Backups[i]? = some cfg.Backups[i] :=
        sweepUpTo_getElem?_skipped env cfg m w ra i _ _ hc hw
      rw [hi] at hs
      cases hs
      unfold inWorkingSet at hw
      cases hra : ra <;> cases hr : cfg.Backups[i].RetrieveSuccess <;> simp_all
  · intro h i b hb _
    have hil : i < (retrieveUrls env cfg m w ra).Backups.length := by
      rw [hlen]; exact (List.getElem?_eq_some.mp hb).1
    rw [List.getElem?_eq_getElem hil]
    simp [h _ (List.getElem_mem hil)]

theorem retrieveUrls_not_all_iff_flags (env : Env) (cfg : Config) (m : metrics) (w : World)
    (ra : Bool) :
    (retrieveUrls env cfg m w ra).allRetrievalsSuccess = false ↔
      ∃ b ∈ (retrieveUrls env cfg m w ra).Backups, b.RetrieveSuccess = false := by
  have h := retrieveUrls_all_iff_flags env cfg m w ra
  constructor
  · intro hf
    by_contra hne
    have : ∀ b ∈ (retrieveUrls env cfg m w ra).Backups, b.RetrieveSuccess = true := by
      intro b hb
      cases hr : b.RetrieveSuccess with
      | true => rfl
      | false => exact absurd ⟨b, hb, hr⟩ hne
    rw [h.mpr this] at hf
    cases hf
  · rintro ⟨b, hb, hr⟩
    cases ha : (retrieveUrls env cfg m w ra).allRetrievalsSuccess with
    | false => rfl
    | true =>
      rw [h.mp ha b hb] at hr
      cases hr

/-- A retry sweep over items whose flags are all true fetches nothing, returns
true and leaves the items as they are. -/
theorem retrieveUrls_retry_nothing_to_do (env : Env) (cfg : Config) (m : metrics) (w : World)
    (h : ∀ b ∈ cfg.Backups, b.RetrieveSuccess = true) :
    (retrieveUrls env cfg m w false).fetched = [] ∧
    (retrieveUrls env cfg m w false).allRetrievalsSuccess = true ∧
    (retrieveUrls env cfg m w false).Backups = cfg.Backups := by
  have hws : ∀ (i : Nat) (b : Backup), cfg.Backups[i]? = some b →
      inWorkingSet false b = false := by
    intro i b hb
    simp [inWorkingSet, h b (List.mem_iff_getElem?.mpr ⟨i, hb⟩)]
  refine ⟨?_, ?_, ?_⟩
  · show (sweepUpTo env cfg m w false cfg.Backups.length).fetched = []
    rw [sweepUpTo_fetched, List.filter_eq_nil_iff]
    intro i _
    cases hb : cfg.Backups[i]? with
    | none => simp
    | some b => simp [hws i b hb]
  · show (sweepUpTo env cfg m w false cfg.Backups.length).allRetrievalsSuccess = true
    rw [sweepUpTo_all]
    intro i _ b hb hw
    rw [hws i b hb] at hw
    cases hw
  · show (sweepUpTo env cfg m w false cfg.Backups.length).Backups = cfg.Backups
    apply List.ext_getElem?
    intro i
    cases hb : cfg.Backups[i]? with
    | none =>
      apply List.getElem?_eq_none
      rw [sweepUpTo_length]
      exact List.getElem?_eq_none_iff.mp hb
    | some b => exact sweepUpTo_getElem?_skipped env cfg m w false i _ b hb (hws i b hb)

/-! ### The ticker -/

theorem Ticker.advance_of_stopped (t : Ticker) (now : Int) (h : t.next = none) :
    t.advance now = t := by
  simp [Ticker.advance, h]

theorem Ticker.advance_armed (t : Ticker) (now : Int) :
    (t.advance now).armed = t.armed := by
  unfold Ticker.advance Ticker.armed
  cases hn : t.next with
  | none => simp [hn]
  | some due =>
    by_cases hd : due ≤ now
    · simp [hd]
    · simp [hd, hn]

/-- A receive from a running ticker completes. -/
theorem Ticker.recv_isSome_of_armed (t : Ticker) (now : Int) (h : t.armed = true) :
    (t.recv now).isSome = true := by
  have ha := Ticker.advance_armed t now
  rw [h] at ha
  unfold Ticker.armed at ha
  obtain ⟨due, hdue⟩ := Option.isSome_iff_exists.mp ha
  unfold Ticker.recv
  cases (t.advance now).pending <;> simp [hdue]

/-- After a receive no tick waits in the channel, and a running ticker is still
running. -/
theorem Ticker.recv_of_armed (t : Ticker) (now : Int) (p : Int × Ticker)
    (ha : t.armed = true) (h : t.recv now = some p) :
    p.2.armed = true ∧ p.2.pending = false := by
  have ha1 := Ticker.advance_armed t now
  rw [ha] at ha1
  unfold Ticker.recv at h
  cases hp : (t.advance now).pending with
  | true =>
    rw [hp] at h
    simp only [if_true, Option.some.injEq] at h
    rw [← h]
    exact ⟨ha1, rfl⟩
  | false =>
    rw [hp] at h
    simp only [Bool.false_eq_true, if_false] at h
    cases hn : (t.advance now).next with
    | none => rw [hn] at h; cases h
    | some due =>
      rw [hn] at h
      simp only [Option.some.injEq] at h
      rw [← h]
      exact ⟨rfl, hp⟩

/-- A receive from a stopped ticker completes only on a tick that was waiting
in the channel, and leaves the ticker stopped with an empty channel. -/
theorem Ticker.recv_of_stopped (t : Ticker) (now : Int) (p : Int × Ticker)
    (ha : t.armed = false) (h : t.recv now = some p) :
    t.pending = true ∧ p.2.armed = false ∧ p.2.pending = false ∧ p.2.next = none := by
  have hn : t.next = none := by
    unfold Ticker.armed at ha
    cases hx : t.next with
    | none => rfl
    | some d => rw [hx] at ha; cases ha
  unfold Ticker.recv at h
  rw [Ticker.advance_of_stopped t now hn] at h
  cases hp : t.pending with
  | true =>
    rw [hp] at h
    simp only [if_true, Option.some.injEq] at h
    rw [← h]
    exact ⟨rfl, by simp [Ticker.armed, hn], rfl, hn⟩
  | false =>
    rw [hp, hn] at h
    simp at h

/-- A receive from a stopped ticker with an empty channel never completes. -/
theorem Ticker.recv_of_stopped_empty (t : Ticker) (now : Int) (ha : t.armed = false)
    (hp : t.pending = false) : t.recv now = none := by
  cases h : t.recv now with
  | none => rfl
  | some p =>
    have := (Ticker.recv_of_stopped t now p ha h).1
    rw [hp] at this
    cases this

theorem Ticker.Stop_armed (async : Bool) (t : Ticker) (now : Int) :
    (t.Stop async now).armed = false := rfl

theorem Ticker.Stop_pending_of_empty (async : Bool) (t : Ticker) (now : Int)
    (hn : t.next = none) (hp : t.pending = false) : (t.Stop async now).pending = false := by
  simp [Ticker.Stop, Ticker.advance_of_stopped t now hn, hp]

/-! ### The first sweep and the turns of the loop -/

/-- What `mainStart` returns, when the tickers can be created. -/
theorem mainStart_eq (env : Env) (cfg : Config) (m : metrics) (w : World) (now : Int)
    (dur : Nat) (s : MainState) (r : Bool) (h : mainStart env cfg m w now dur = some (s, r)) :
    r = (retrieveUrls env cfg m w true).allRetrievalsSuccess ∧
    s.cfg.Backups = (retrieveUrls env cfg m w true).Backups ∧
    s.cfg.RetryInterval = cfg.RetryInterval ∧
    s.now = now + dur ∧
    s.tickerRetry.next = (if r then none else some (now + cfg.RetryInterval)) ∧
    (env.asyncTimerChan = false → r = true → s.tickerRetry.pending = false) := by
  unfold mainStart NewTicker at h
  by_cases h1 : 0 < cfg.Interval
  · by_cases h2 : 0 < cfg.RetryInterval
    · simp only [h1, h2, if_true, Option.some.injEq, Prod.mk.injEq] at h
      obtain ⟨hs, hr⟩ := h
      subst hs
      subst hr
      refine ⟨rfl, rfl, rfl, rfl, ?_, ?_⟩
      · cases (retrieveUrls env cfg m w true).allRetrievalsSuccess <;> simp [Ticker.Stop]
      · intro ha hr
        simp [hr, Ticker.Stop, ha]
    · simp [h1, h2] at h
  · simp [h1] at h

/-- What a turn of the loop returns, when its case can be taken, in a state in
which a stopped retry ticker goes with flags that are all true. -/
theorem mainStep_eq (env : Env) (s : MainState) (e : Tick) (s1 : MainState) (r : Bool)
    (hinv : s.tickerRetry.armed = false → ∀ b ∈ s.cfg.Backups, b.RetrieveSuccess = true)
    (h : mainStep env s e = some (s1, r)) :
    (r = (retrieveUrls env s.cfg s.m s.world e.retrieveAll).allRetrievalsSuccess) ∧
    (s1.cfg.Backups = (retrieveUrls env s.cfg s.m s.world e.retrieveAll).Backups) ∧
    (s1.tickerRetry.armed = true ↔ r = false) ∧
    (env.asyncTimerChan = false → s1.tickerRetry.armed = false →
      s1.tickerRetry.pending = false) := by
  cases e with
  | full dur =>
    simp only [mainStep] at h
    cases hrv : s.ticker.recv s.now with
    | none => rw [hrv] at h; cases h
    | some p =>
      obtain ⟨t, ticker⟩ := p
      rw [hrv] at h
      dsimp only at h
      cases ha : (retrieveUrls env s.cfg s.m s.world true).allRetrievalsSuccess with
      | true =>
        rw [ha] at h
        simp only [if_true, Option.some.injEq, Prod.mk.injEq] at h
        obtain ⟨hs, hr⟩ := h
        subst hs
        subst hr
        refine ⟨ha.symm, rfl, by simp [Ticker.armed, Ticker.Stop], ?_⟩
        intro hasync _
        simp [Ticker.Stop, hasync]
      | false =>
        rw [ha] at h
        simp only [Bool.false_eq_true, if_false] at h
        unfold Ticker.Reset at h
        by_cases hd : 0 < s.cfg.RetryInterval
        · simp only [hd, if_true, Option.some.injEq, Prod.mk.injEq] at h
          obtain ⟨hs, hr⟩ := h
          subst hs
          subst hr
          refine ⟨ha.symm, rfl, by simp [Ticker.armed], ?_⟩
          intro _ hx
          simp [Ticker.armed] at hx
        · simp [hd] at h
  | retry dur =>
    simp only [mainStep] at h
    cases hrv : s.tickerRetry.recv s.now with
    | none => rw [hrv] at h; cases h
    | some p =>
      obtain ⟨t, tickerRetry⟩ := p
      rw [hrv] at h
      simp only [Option.some.injEq, Prod.mk.injEq] at h
      obtain ⟨hs, hr⟩ := h
      subst hs
      subst hr
      refine ⟨rfl, rfl, ?_, ?_⟩
      · cases harm : s.tickerRetry.armed with
        | true =>
          have hn := (Ticker.recv_of_armed s.tickerRetry s.now (t, tickerRetry) harm hrv).1
          cases (retrieveUrls env s.cfg s.m s.world false).allRetrievalsSuccess
          · simpa using hn
          · simp [Ticker.armed, Ticker.Stop]
        | false =>
          have hr := (retrieveUrls_retry_nothing_to_do env s.cfg s.m s.world (hinv harm)).2.1
          show (if (retrieveUrls env s.cfg s.m s.world false).allRetrievalsSuccess = true then
            tickerRetry.Stop env.asyncTimerChan (t + dur) else tickerRetry).armed = true ↔
            (retrieveUrls env s.cfg s.m s.world false).allRetrievalsSuccess = false
          rw [hr]
          simp [Ticker.armed, Ticker.Stop]
      · intro hasync _
        have hp : tickerRetry.pending = false := by
          cases harm : s.tickerRetry.armed with
          | true => exact (Ticker.recv_of_armed s.tickerRetry s.now (t, tickerRetry) harm hrv).2
          | false =>
            exact (Ticker.recv_of_stopped s.tickerRetry s.now (t, tickerRetry) harm hrv).2.2.1
        show (if (retrieveUrls env s.cfg s.m s.world false).allRetrievalsSuccess = true then
          tickerRetry.Stop env.asyncTimerChan (t + dur) else tickerRetry).pending = false
        cases (retrieveUrls env s.cfg s.m s.world false).allRetrievalsSuccess
        · simpa using hp
        · simp [Ticker.Stop, hasync]

theorem retryInvariant_stopped (s : MainState) (h : retryInvariant s)
    (ha : s.tickerRetry.armed = false) : ∀ b ∈ s.cfg.Backups, b.RetrieveSuccess = true := by
  intro b hb
  cases hr : b.RetrieveSuccess with
  | true => rfl
  | false =>
    rw [h.mpr ⟨b, hb, hr⟩] at ha
    cases ha

theorem mainStart_retryInvariant (env : Env) (cfg : Config) (m : metrics) (w : World)
    (now : Int) (dur : Nat) (s : MainState) (r : Bool)
    (h : mainStart env cfg m w now dur = some (s, r)) :
    retryInvariant s ∧ noStaleTick env s := by
  obtain ⟨hr, hb, _, _, hn, hp⟩ := mainStart_eq env cfg m w now dur s r h
  constructor
  · unfold retryInvariant
    rw [hb, ← retrieveUrls_not_all_iff_flags, ← hr]
    unfold Ticker.armed
    rw [hn]
    cases r <;> simp
  · intro hasync harm
    apply hp hasync
    unfold Ticker.armed at harm
    rw [hn] at harm
    cases r
    · simp at harm
    · rfl

theorem mainStep_retryInvariant (env : Env) (s : MainState) (e : Tick) (s1 : MainState)
    (r : Bool) (hinv : retryInvariant s) (h : mainStep env s e = some (s1, r)) :
    retryInvariant s1 ∧ noStaleTick env s1 := by
  obtain ⟨hr, hb, ha, hp⟩ := mainStep_eq env s e s1 r (retryInvariant_stopped s hinv) h
  constructor
  · unfold retryInvariant
    rw [hb, ← retrieveUrls_not_all_iff_flags, ← hr]
    exact ha
  · exact hp

theorem mainRun_retryInvariant (env : Env) (evs : List Tick) :
    ∀ (s0 s : MainState), retryInvariant s0 ∧ noStaleTick env s0 →
      mainRun env s0 evs = some s → retryInvariant s ∧ noStaleTick env s := by
  induction evs with
  | nil =>
    intro s0 s h0 hrun
    simp only [mainRun, Option.some.injEq] at hrun
    rw [← hrun]
    exact h0
  | cons e es ih =>
    intro s0 s h0 hrun
    simp only [mainRun] at hrun
    cases hs : mainStep env s0 e with
    | none => rw [hs] at hrun; cases hrun
    | some p =>
      obtain ⟨s1, r⟩ := p
      rw [hs] at hrun
      exact ih s1 s (mainStep_retryInvariant env s0 e s1 r h0.1 hs) hrun

/-- While its ticker is stopped and its channel empty, the retry case cannot be
taken. -/
theorem mainStep_retry_disarmed (env : Env) (s : MainState) (dur : Nat)
    (h : s.tickerRetry.armed = false) (hp : s.tickerRetry.pending = false) :
    mainStep env s (Tick.retry dur) = none := by
  simp [mainStep, Ticker.recv_of_stopped_empty s.tickerRetry s.now h hp]

/-- The case of `ticker` can always be taken when `ticker` is running: `Reset`
is called with the positive interval the tickers were created with. -/
theorem mainStep_full_isSome (env : Env) (s : MainState) (dur : Nat)
    (h1 : s.ticker.armed = true) (h2 : 0 < s.cfg.RetryInterval) :
    (mainStep env s (Tick.full dur)).isSome = true := by
  obtain ⟨p, hp⟩ := Option.isSome_iff_exists.mp (Ticker.recv_isSome_of_armed s.ticker s.now h1)
  simp only [mainStep, hp, Ticker.Reset, h2, if_true]
  cases (retrieveUrls env s.cfg s.m s.world true).allRetrievalsSuccess <;> simp

/-- The case of `tickerRetry` can be taken whenever that ticker is running. -/
theorem mainStep_retry_isSome (env : Env) (s : MainState) (dur : Nat)
    (h : s.tickerRetry.armed = true) :
    (mainStep env s (Tick.retry dur)).isSome = true := by
  obtain ⟨p, hp⟩ :=
    Option.isSome_iff_exists.mp (Ticker.recv_isSome_of_armed s.tickerRetry s.now h)
  simp [mainStep, hp]

/-- The first sweep takes place whenever both intervals are positive. -/
theorem mainStart_isSome (env : Env) (cfg : Config) (m : metrics) (w : World) (now : Int)
    (dur : Nat) (h1 : 0 < cfg.Interval) (h2 : 0 < cfg.RetryInterval) :
    (mainStart env cfg m w now dur).isSome = true := by
  simp [mainStart, NewTicker, h1, h2]

/-! ### The claims on the scheduler -/

/-- C3 as stated fails on the buffered timer channels of Go before 1.23: with a
retry interval of 10 s and a first sweep that succeeds and lasts 15 s, the retry
ticker fires during the sweep; `Stop` stops the timer but the tick stays in the
channel, and the loop then runs a retry sweep although the last sweep returned
true and no full sweep has returned false. -/
theorem main_retry_after_success_counterexample :
    ∃ s s1, mainStart (envServing wantedBody) cfgOne metrics0 world0 0 15000000000 =
        some (s, true) ∧
      s.tickerRetry.armed = false ∧
      mainStep (envServing wantedBody) s (Tick.retry 1000000000) = some (s1, true) :=
  ⟨_, _, rfl, rfl, rfl⟩

/-- C3, amended: in every run of `main`, after every sweep (the first sweep, a
sweep on the tick of `ticker`, a sweep on the tick of `tickerRetry`) the retry
ticker is running exactly when the sweep returned false. While it is stopped, a
retry sweep can run only on a tick that was already waiting in its channel when
it was stopped; that sweep fetches nothing, returns true and leaves the ticker
stopped with an empty channel; with the channel empty no retry sweep runs, and
a full sweep that returns true leaves the ticker stopped and the channel empty.
So at most one retry sweep runs before a full sweep returns false. On the timer
channels of Go 1.23 and later no tick is left waiting, and no retry sweep runs
while the ticker is stopped. -/
theorem main_retry_armed_iff_sweep_failed (env : Env) (cfg : Config) (m : metrics)
    (w : World) (now : Int) (dur : Nat) (s0 : MainState) (r0 : Bool) (evs : List Tick)
    (s : MainState) (h0 : mainStart env cfg m w now dur = some (s0, r0))
    (hrun : mainRun env s0 evs = some s) :
    (r0 = (retrieveUrls env cfg m w true).allRetrievalsSuccess ∧
      (s0.tickerRetry.armed = true ↔ r0 = false)) ∧
    (∀ (e : Tick) (s1 : MainState) (r : Bool), mainStep env s e = some (s1, r) →
      r = (retrieveUrls env s.cfg s.m s.world e.retrieveAll).allRetrievalsSuccess ∧
      (s1.tickerRetry.armed = true ↔ r = false)) ∧
    (∀ (d : Nat), s.tickerRetry.armed = false → s.tickerRetry.pending = false →
      mainStep env s (Tick.retry d) = none) ∧
    (∀ (d : Nat) (s1 : MainState) (r : Bool), s.tickerRetry.armed = false →
      mainStep env s (Tick.retry d) = some (s1, r) →
      s.tickerRetry.pending = true ∧
      (retrieveUrls env s.cfg s.m s.world false).fetched = [] ∧
      r = true ∧ s1.tickerRetry.armed = false ∧ s1.tickerRetry.pending = false) ∧
    (∀ (d : Nat) (s1 : MainState), s.tickerRetry.armed = false →
      s.tickerRetry.pending = false → mainStep env s (Tick.full d) = some (s1, true) →
      s1.tickerRetry.armed = false ∧ s1.tickerRetry.pending = false) ∧
    (env.asyncTimerChan = false → s.tickerRetry.armed = false →
      ∀ (d : Nat), mainStep env s (Tick.retry d) = none) := by
  have hs0 := mainStart_retryInvariant env cfg m w now dur s0 r0 h0
  have hinv := mainRun_retryInvariant env evs s0 s hs0 hrun
  refine ⟨?_, ?_, ?_, ?_, ?_, ?_⟩
  · obtain ⟨hr, _, _, _, hn, _⟩ := mainStart_eq env cfg m w now dur s0 r0 h0
    refine ⟨hr, ?_⟩
    unfold Ticker.armed
    rw [hn]
    cases r0 <;> simp
  · intro e s1 r h
    obtain ⟨hr, _, ha, _⟩ := mainStep_eq env s e s1 r (retryInvariant_stopped s hinv.1) h
    exact ⟨hr, ha⟩
  · intro d ha hp
    exact mainStep_retry_disarmed env s d ha hp
  · intro d s1 r ha h
    have hflags := retryInvariant_stopped s hinv.1 ha
    obtain ⟨hf, hall, _⟩ := retrieveUrls_retry_nothing_to_do env s.cfg s.m s.world hflags
    obtain ⟨hr, _, harm, _⟩ := mainStep_eq env s (Tick.retry d) s1 r
      (retryInvariant_stopped s hinv.1) h
    have hr1 : r = true := by rw [hr]; exact hall
    have hpend : s.tickerRetry.pending = true := by
      cases hp : s.tickerRetry.pending with
      | true => rfl
      | false =>
        rw [mainStep_retry_disarmed env s d ha hp] at h
        cases h
    have harm1 : s1.tickerRetry.armed = false := by
      cases hx : s1.tickerRetry.armed with
      | false => rfl
      | true =>
        have := harm.mp hx
        rw [hr1] at this
        cases this
    refine ⟨hpend, hf, hr1, harm1, ?_⟩
    simp only [mainStep] at h
    cases hrv : s.tickerRetry.recv s.now with
    | none => rw [hrv] at h; cases h
    | some p =>
      obtain ⟨t, tickerRetry⟩ := p
      rw [hrv] at h
      simp only [Option.some.injEq, Prod.mk.injEq] at h
      obtain ⟨hs, _⟩ := h
      obtain ⟨_, _, hp2, hn2⟩ := Ticker.recv_of_stopped s.tickerRetry s.now (t, tickerRetry)
        ha hrv
      rw [← hs]
      show (if (retrieveUrls env s.cfg s.m s.world false).allRetrievalsSuccess = true then
        tickerRetry.Stop env.asyncTimerChan (t + d) else tickerRetry).pending = false
      rw [hall]
      exact Ticker.Stop_pending_of_empty _ _ _ hn2 hp2
  · intro d s1 ha hp h
    have hn : s.tickerRetry.next = none := by
      unfold Ticker.armed at ha
      cases hx : s.tickerRetry.next with
      | none => rfl
      | some x => rw [hx] at ha; cases ha
    simp only [mainStep] at h
    cases hrv : s.ticker.recv s.now with
    | none => rw [hrv] at h; cases h
    | some p =>
      obtain ⟨t, ticker⟩ := p
      rw [hrv] at h
      dsimp only at h
      cases hall : (retrieveUrls env s.cfg s.m s.world true).allRetrievalsSuccess with
      | true =>
        rw [hall] at h
        simp only [if_true, Option.some.injEq, Prod.mk.injEq, and_true] at h
        rw [← h]
        exact ⟨rfl, Ticker.Stop_pending_of_empty _ _ _ hn hp⟩
      | false =>
        rw [hall] at h
        simp only [Bool.false_eq_true, if_false] at h
        cases hre : s.tickerRetry.Reset env.asyncTimerChan (t + d) s.cfg.RetryInterval with
        | none => rw [hre] at h; cases h
        | some tr =>
          rw [hre] at h
          simp at h
  · intro hasync ha d
    exact mainStep_retry_disarmed env s d ha (hinv.2 hasync ha)

/-- Witness of C3, amended: the server cannot be reached, the first sweep
returns false and the retry ticker is running; the retry sweep that follows
fails again and the ticker keeps running. -/
theorem main_retry_armed_iff_sweep_failed_witness :
    mainStart envDown cfgOne metrics0 world0 0 1 = some (downStart, false) ∧
    downStart.tickerRetry.armed = true ∧
    ∃ s1, mainStep envDown downStart (Tick.retry 1) = some (s1, false) ∧
      s1.tickerRetry.armed = true :=
  have h := main_retry_armed_iff_sweep_failed envDown cfgOne metrics0 world0 0 1 downStart
    false [] downStart rfl rfl
  ⟨rfl, (h.1.2).mpr rfl, _, rfl, ((h.2.1 (Tick.retry 1) _ false rfl).2).mpr rfl⟩

/-- C9, what the code does. `tickerRetry` is created before the first sweep and
is not reset after it: with a retry interval of 10 s and a first sweep that
fails and lasts 3 s, the sweep ends at 3 s and the first retry tick is received
at 10 s, not at 13 s. The case of `ticker` does reset it, but on the buffered
timer channels of Go before 1.23 a tick that fell due during the sweep stays in
the channel: after five retry sweeps, a full sweep that starts at 60 s and fails
at 64 s sets the timer to 74 s, and the retry tick of 60 s is received at
64 s. -/
theorem main_retry_deadline_not_restarted :
    ∃ s, mainStart envDown cfgOne metrics0 world0 0 3000000000 = some (s, false) ∧
      s.now = 3000000000 ∧
      s.tickerRetry.next = some 10000000000 ∧
      s.tickerRetry.next ≠ some (s.now + cfgOne.RetryInterval) ∧
      (∃ tr, s.tickerRetry.recv s.now = some (10000000000, tr)) ∧
      ∃ s1 s2,
        mainRun envDown s [Tick.retry 1000000000, Tick.retry 1000000000,
          Tick.retry 1000000000, Tick.retry 1000000000, Tick.retry 1000000000] = some s1 ∧
        mainStep envDown s1 (Tick.full 4000000000) = some (s2, false) ∧
        s2.now = 64000000000 ∧
        s2.tickerRetry.next = some 74000000000 ∧
        ∃ tr, s2.tickerRetry.recv s2.now = some (64000000000, tr) :=
  ⟨_, rfl, rfl, rfl, by decide, ⟨_, rfl⟩, _, _, rfl, rfl, rfl, rfl, ⟨_, rfl⟩⟩

/-- C10: in every run of `main` (the first sweep, then any sequence of cases of
the `select`, with any outcomes of the fetches) the retry ticker is running
after every sweep if and only if some tracked item, among all of them, has its
flag false. So whenever the ticker is stopped every flag is true, and every
retry sweep that runs while the ticker is running has an item to fetch. This
holds whatever the flags were before the first sweep, and also in the runs in
which a tick left in the channel starts a retry sweep while the ticker is
stopped. -/
theorem main_armed_iff_some_item_failed (env : Env) (cfg : Config) (m : metrics) (w : World)
    (now : Int) (dur : Nat) (s0 : MainState) (r : Bool) (evs : List Tick) (s : MainState)
    (h0 : mainStart env cfg m w now dur = some (s0, r))
    (hrun : mainRun env s0 evs = some s) :
    (s.tickerRetry.armed = true ↔ ∃ b ∈ s.cfg.Backups, b.RetrieveSuccess = false) ∧
    (s.tickerRetry.armed = false → ∀ b ∈ s.cfg.Backups, b.RetrieveSuccess = true) ∧
    (s.tickerRetry.armed = true → ∀ (d : Nat),
      (mainStep env s (Tick.retry d)).isSome = true ∧
      (retrieveUrls env s.cfg s.m s.world false).fetched ≠ []) := by
  have hinv : retryInvariant s :=
    (mainRun_retryInvariant env evs s0 s (mainStart_retryInvariant env cfg m w now dur s0 r h0)
      hrun).1
  refine ⟨hinv, retryInvariant_stopped s hinv, ?_⟩
  intro harmed d
  refine ⟨mainStep_retry_isSome env s d harmed, ?_⟩
  obtain ⟨b, hb, hr⟩ := hinv.mp harmed
  obtain ⟨i, hi⟩ := List.mem_iff_getElem?.mp hb
  have hc := sweepUpTo_fetched_count env s.cfg s.m s.world false i
  rw [hi] at hc
  have hc1 : (retrieveUrls env s.cfg s.m s.world false).fetched.count i = 1 := by
    show (sweepUpTo env s.cfg s.m s.world false s.cfg.Backups.length).fetched.count i = 1
    rw [hc]
    simp [inWorkingSet, hr]
  intro hnil
  rw [hnil] at hc1
  simp at hc1

/-- Witness of C10: the server cannot be reached; after the first sweep, a retry
sweep and a full sweep, the retry ticker is running and the item is flagged. -/
theorem main_armed_iff_some_item_failed_witness :
    ∃ s0 s, mainStart envDown cfgOne metrics0 world0 0 1 = some (s0, false) ∧
      mainRun envDown s0 [Tick.retry 1, Tick.full 1] = some s ∧
      (s.tickerRetry.armed = true ↔ ∃ b ∈ s.cfg.Backups, b.RetrieveSuccess = false) :=
  ⟨_, _, rfl, rfl,
    (main_armed_iff_some_item_failed envDown cfgOne metrics0 world0 0 1 _ false
      [Tick.retry 1, Tick.full 1] _ rfl rfl).1⟩

/-! ## The default durations of `readConfig` -/

/-- C7, what the code does: `time.ParseDuration` knows no unit `d`, so the
default string "1d" is rejected (one day is written "24h"). Hence `readConfig`
on a file without the key `interval` ends in the `Fatal` that the code itself
labels "THIS IS A BUG", and so it does on a file that gives `interval` but no
`retryInterval`; in neither case does it return a configuration. -/
theorem readConfig_default_duration_fatal :
    ParseDuration "1d" = Except.error (DurationError.unknownUnit "d") ∧
    ParseDuration "24h" = Except.ok 86400000000000 ∧
    (∀ (c : Config) (data : List (String × YamlValue)), data.lookup "interval" = none →
      readConfig c (ConfigFile.parsed data) = Outcome.fatal) ∧
    (∀ (c : Config) (data : List (String × YamlValue)) (text : String) (d : Int),
      data.lookup "interval" = some (YamlValue.str text) → ParseDuration text = Except.ok d →
      data.lookup "retryInterval" = none →
      readConfig c (ConfigFile.parsed data) = Outcome.fatal) ∧
    readConfig cfgEmpty fileNoIntervals = Outcome.fatal := by
  have h1d : ParseDuration "1d" = Except.error (DurationError.unknownUnit "d") := rfl
  refine ⟨h1d, rfl, ?_, ?_, rfl⟩
  · intro c data h
    simp only [readConfig, h, h1d, loggerFatal]
  · intro c data text d h hp hr
    simp only [readConfig, h, hp, hr, h1d, loggerFatal]

end BackupRemoteFiles
